import Mathlib

/-
  Verification of reference_metric.py, a symbolic coordinate-system catalog.

  The Python module builds sympy expressions from the three uniform
  coordinates xx0, xx1, xx2 and a set of named real parameters.  We embed
  those expression trees shallowly as the inductive type `Expr`, give them
  their real semantics through `evalE`, and mirror the sympy derivative
  operator sp.diff by the structural differentiator `diffE` (proved correct
  against the Mathlib derivative in `diffE_correct`).

  Module state: the Python module holds four rank-1 arrays of size 4
  (xx, xxCart, xxSph, scalefactor_orthog) plus two bound lists xxmin, xxmax.
  The xx array always holds the symbols xx0..xx3; the branches of
  reference_metric() only re-declare xx0/xx1 with a positivity assumption,
  which we model as hypotheses of the semantic theorems, so xx needs no
  explicit state here and xx[i] is embedded as `Expr.var i`.  The remaining
  arrays and the two lists form `RefState`.

  Python scoping note: inside def reference_metric() the statements
  xxmin = [...] and xxmax = [...] bind fresh LOCAL variables (there is no
  global declaration in the function), so the module-level xxmin/xxmax are
  never touched by the function; item assignments such as xxCart[0] = ...
  mutate the module-level lists in place.  The embedding reproduces this:
  `reference_metric` updates the three arrays and leaves the xxmin/xxmax
  fields of the state unchanged.  The per-branch local bound lists are
  still recorded, as `xxminOf`/`xxmaxOf`, for stating domain claims.

  The unsupported-name branch prints the offending name and calls exit(1);
  process termination is modeled by the `Except.error` result carrying the
  printed message.
-/

/-- Names of the free real parameters (par.Cparameters) that occur inside
the symbolic expressions or inside the per-branch bound strings. -/
inductive PName where
  | RMAX | AMPL | SINHW | const_dr
  | RHOMAX | ZMIN | ZMAX
  | AMPLRHO | SINHWRHO | AMPLZ | SINHWZ | const_drho | const_dz
  | bScale | AW | AMAX
  | xmin | xmax | ymin | ymax | zmin | zmax
  deriving DecidableEq

/-- Symbolic expression trees, mirroring the sympy expressions the module
builds: integer literals, the coordinate symbols xx0/xx1/xx2, parameter
symbols, field operations and the transcendental functions used by the
source (sin, cos, exp, sqrt, atan2, acos).  Subtraction a - b is embedded
as add a (neg b) and a power e**2 as mul e e. -/
inductive Expr where
  | num : Int → Expr
  | var : Fin 3 → Expr
  | par : PName → Expr
  | add : Expr → Expr → Expr
  | mul : Expr → Expr → Expr
  | neg : Expr → Expr
  | div : Expr → Expr → Expr
  | sin : Expr → Expr
  | cos : Expr → Expr
  | exp : Expr → Expr
  | sqrt : Expr → Expr
  | atan2 : Expr → Expr → Expr
  | acos : Expr → Expr
  deriving DecidableEq

/-- Real semantics of atan2, via the argument of the complex number x + i y. -/
noncomputable def atan2R (y x : ℝ) : ℝ := Complex.arg ⟨x, y⟩

/-- Real semantics of an expression, given values for the parameters and for
the three coordinates. -/
noncomputable def evalE (p : PName → ℝ) (x : Fin 3 → ℝ) : Expr → ℝ
  | .num n => (n : ℝ)
  | .var i => x i
  | .par a => p a
  | .add a b => evalE p x a + evalE p x b
  | .mul a b => evalE p x a * evalE p x b
  | .neg a => -(evalE p x a)
  | .div a b => evalE p x a / evalE p x b
  | .sin a => Real.sin (evalE p x a)
  | .cos a => Real.cos (evalE p x a)
  | .exp a => Real.exp (evalE p x a)
  | .sqrt a => Real.sqrt (evalE p x a)
  | .atan2 a b => atan2R (evalE p x a) (evalE p x b)
  | .acos a => Real.arccos (evalE p x a)

/-- Structural differentiation with respect to coordinate i, mirroring
sympy sp.diff on the expression forms the module uses. -/
def diffE (i : Fin 3) : Expr → Expr
  | .num _ => .num 0
  | .var j => if j = i then .num 1 else .num 0
  | .par _ => .num 0
  | .add a b => .add (diffE i a) (diffE i b)
  | .mul a b => .add (.mul (diffE i a) b) (.mul a (diffE i b))
  | .neg a => .neg (diffE i a)
  | .div a b => .div (.add (.mul (diffE i a) b) (.neg (.mul a (diffE i b)))) (.mul b b)
  | .sin a => .mul (.cos a) (diffE i a)
  | .cos a => .neg (.mul (.sin a) (diffE i a))
  | .exp a => .mul (.exp a) (diffE i a)
  | .sqrt a => .div (diffE i a) (.mul (.num 2) (.sqrt a))
  | .atan2 a b => .div (.add (.mul b (diffE i a)) (.neg (.mul a (diffE i b))))
      (.add (.mul b b) (.mul a a))
  | .acos a => .neg (.div (diffE i a) (.sqrt (.add (.num 1) (.neg (.mul a a)))))

/-- Decides whether an expression does not mention coordinate i. -/
def varFree (i : Fin 3) : Expr → Bool
  | .num _ => true
  | .var j => if j = i then false else true
  | .par _ => true
  | .add a b => varFree i a && varFree i b
  | .mul a b => varFree i a && varFree i b
  | .div a b => varFree i a && varFree i b
  | .atan2 a b => varFree i a && varFree i b
  | .neg a => varFree i a
  | .sin a => varFree i a
  | .cos a => varFree i a
  | .exp a => varFree i a
  | .sqrt a => varFree i a
  | .acos a => varFree i a

/-- Decides whether an expression mentions the parameter q. -/
def dependsOn (q : PName) : Expr → Bool
  | .num _ => false
  | .var _ => false
  | .par a => if a = q then true else false
  | .add a b => dependsOn q a || dependsOn q b
  | .mul a b => dependsOn q a || dependsOn q b
  | .div a b => dependsOn q a || dependsOn q b
  | .atan2 a b => dependsOn q a || dependsOn q b
  | .neg a => dependsOn q a
  | .sin a => dependsOn q a
  | .cos a => dependsOn q a
  | .exp a => dependsOn q a
  | .sqrt a => dependsOn q a
  | .acos a => dependsOn q a

/-- Side conditions at a point under which `diffE` computes the honest
derivative there: every division has a nonzero denominator, every square
root a nonzero argument, and the two functions the source never
differentiates (atan2, acos) do not occur. -/
def Dok (p : PName → ℝ) (x : Fin 3 → ℝ) : Expr → Prop
  | .num _ => True
  | .var _ => True
  | .par _ => True
  | .add a b => Dok p x a ∧ Dok p x b
  | .mul a b => Dok p x a ∧ Dok p x b
  | .neg a => Dok p x a
  | .div a b => Dok p x a ∧ Dok p x b ∧ evalE p x b ≠ 0
  | .sin a => Dok p x a
  | .cos a => Dok p x a
  | .exp a => Dok p x a
  | .sqrt a => Dok p x a ∧ evalE p x a ≠ 0
  | .atan2 _ _ => False
  | .acos _ => False

/-- Square of an expression, the embedding of e**2. -/
def sqE (e : Expr) : Expr := .mul e e

/-- The constant denominator exp(1/w) - exp(-1/w) of the sinh
reparametrization. -/
def sinhDen (w : PName) : Expr :=
  .add (.exp (.div (.num 1) (.par w))) (.neg (.exp (.div (.neg (.num 1)) (.par w))))

/-- The sinh-based reparametrization quotient shared by the SinhSpherical
and SinhCylindrical families:
(exp(v/w) - exp(-v/w)) / (exp(1/w) - exp(-1/w)). -/
def sinhFrac (v : Expr) (w : PName) : Expr :=
  .div (.add (.exp (.div v (.par w))) (.neg (.exp (.div (.neg v) (.par w)))))
       (sinhDen w)

/-- SinhSpherical radial coordinate r(xx0). -/
def rSinhE : Expr := .mul (.par .AMPL) (sinhFrac (.var 0) .SINHW)

/-- SinhSphericalv2 radial coordinate r(xx0), with the const_dr linear term. -/
def rSinhv2E : Expr :=
  .mul (.par .AMPL) (.add (.mul (.par .const_dr) (.var 0)) (sinhFrac (.var 0) .SINHW))

/-- SinhCylindrical rho(xx0). -/
def rhoSinhE : Expr := .mul (.par .AMPLRHO) (sinhFrac (.var 0) .SINHWRHO)

/-- SinhCylindricalv2 rho(xx0). -/
def rhoSinhv2E : Expr :=
  .mul (.par .AMPLRHO) (.add (.mul (.par .const_drho) (.var 0)) (sinhFrac (.var 0) .SINHWRHO))

/-- SinhCylindrical z(xx2). -/
def zSinhE : Expr := .mul (.par .AMPLZ) (sinhFrac (.var 2) .SINHWZ)

/-- SinhCylindricalv2 z(xx2). -/
def zSinhv2E : Expr :=
  .mul (.par .AMPLZ) (.add (.mul (.par .const_dz) (.var 2)) (sinhFrac (.var 2) .SINHWZ))

/-- SinhSymTP radial function AA = (exp(xx0/AW) - exp(-xx0/AW))/2. -/
def aaSinhE : Expr :=
  .div (.add (.exp (.div (.var 0) (.par .AW))) (.neg (.exp (.div (.neg (.var 0)) (.par .AW)))))
       (.num 2)

/-- Spherical-type Cartesian x component: r*sin(xx1)*cos(xx2). -/
def sphCart0 (r : Expr) : Expr := .mul (.mul r (.sin (.var 1))) (.cos (.var 2))

/-- Spherical-type Cartesian y component: r*sin(xx1)*sin(xx2). -/
def sphCart1 (r : Expr) : Expr := .mul (.mul r (.sin (.var 1))) (.sin (.var 2))

/-- Spherical-type Cartesian z component: r*cos(xx1). -/
def sphCart2 (r : Expr) : Expr := .mul r (.cos (.var 1))

/-- Cylindrical Cartesian x component: rho*cos(xx1). -/
def cylCart0 (rho : Expr) : Expr := .mul rho (.cos (.var 1))

/-- Cylindrical Cartesian y component: rho*sin(xx1). -/
def cylCart1 (rho : Expr) : Expr := .mul rho (.sin (.var 1))

/-- SymTP auxiliary var1 = sqrt(AA**2 + (bScale*sin(xx1))**2). -/
def var1E (A : Expr) : Expr :=
  .sqrt (.add (sqE A) (sqE (.mul (.par .bScale) (.sin (.var 1)))))

/-- SymTP auxiliary var2 = sqrt(AA**2 + bScale**2). -/
def var2E (A : Expr) : Expr := .sqrt (.add (sqE A) (sqE (.par .bScale)))

/-- SymTP Cartesian z component: var2*cos(xx1). -/
def tpCart2 (A : Expr) : Expr := .mul (var2E A) (.cos (.var 1))

/-- The module-level mutable state: the three populated rank-1 arrays of
size 4 and the two bound lists. -/
@[ext]
structure RefState where
  xxCart : Fin 4 → Expr
  xxSph : Fin 4 → Expr
  scalefactor_orthog : Fin 4 → Expr
  xxmin : List String
  xxmax : List String

/-- State at module import: ixp.zerorank1(DIM=4) arrays and empty bound
lists. -/
def initState : RefState :=
  { xxCart := fun _ => .num 0
    xxSph := fun _ => .num 0
    scalefactor_orthog := fun _ => .num 0
    xxmin := []
    xxmax := [] }

/-- Writes entries 0,1,2 of a rank-1 array of size 4, leaving entry 3
untouched, exactly as the item assignments arr[0..2] = ... do. -/
def updVec (v : Fin 4 → Expr) (a b c : Expr) : Fin 4 → Expr :=
  fun i => if i = 0 then a else if i = 1 then b else if i = 2 then c else v i

/-- State written by the Spherical/SinhSpherical/SinhSphericalv2 branch,
given the (already selected) radial expression r. -/
def sphState (st : RefState) (r : Expr) : RefState :=
  { st with
    xxSph := updVec st.xxSph r (.var 1) (.var 2)
    xxCart := updVec st.xxCart (sphCart0 r) (sphCart1 r) (sphCart2 r)
    scalefactor_orthog :=
      updVec st.scalefactor_orthog (diffE 0 r) r (.mul r (.sin (.var 1))) }

/-- State written by the Cylindrical/SinhCylindrical/SinhCylindricalv2
branch, given the selected RHOCYL and ZCYL expressions. -/
def cylState (st : RefState) (rho z : Expr) : RefState :=
  { st with
    xxCart := updVec st.xxCart (cylCart0 rho) (cylCart1 rho) z
    xxSph := updVec st.xxSph (.sqrt (.add (sqE rho) (sqE z)))
      (.cos (.div z (.sqrt (.add (sqE rho) (sqE z))))) (.var 1)
    scalefactor_orthog :=
      updVec st.scalefactor_orthog (diffE 0 rho) rho (diffE 2 z) }

/-- State written by the SymTP/SinhSymTP branch, given the selected AA
expression. -/
def tpState (st : RefState) (A : Expr) : RefState :=
  { st with
    xxCart := updVec st.xxCart (sphCart0 A) (sphCart1 A) (tpCart2 A)
    xxSph := updVec st.xxSph
      (.sqrt (.add (sqE (.mul A (.sin (.var 1)))) (sqE (tpCart2 A))))
      (.cos (.div (tpCart2 A)
        (.sqrt (.add (sqE (.mul A (.sin (.var 1)))) (sqE (tpCart2 A)))))) (.var 2)
    scalefactor_orthog :=
      updVec st.scalefactor_orthog (.div (.mul (diffE 0 A) (var1E A)) (var2E A))
        (var1E A) (.mul A (.sin (.var 1))) }

/-- State written by the Cartesian branch. -/
def cartState (st : RefState) : RefState :=
  { st with
    xxCart := updVec st.xxCart (.var 0) (.var 1) (.var 2)
    xxSph := updVec st.xxSph
      (.sqrt (.add (.add (sqE (.var 0)) (sqE (.var 1))) (sqE (.var 2))))
      (.cos (.div (.var 2)
        (.sqrt (.add (.add (sqE (.var 0)) (sqE (.var 1))) (sqE (.var 2))))))
      (.atan2 (.var 1) (.var 0))
    scalefactor_orthog := updVec st.scalefactor_orthog (.num 1) (.num 1) (.num 1) }

/-- The reference_metric() routine: dispatches on the CoordSystem string,
overwrites entries 0..2 of xxCart, xxSph and scalefactor_orthog with the
symbolic formulas of the selected system, and fails with the printed
message (followed in the source by exit(1)) for an unsupported name.
The xxmin/xxmax fields pass through unchanged, because the assignments to
xxmin/xxmax in the Python function bind locals (see the header comment). -/
def reference_metric (CoordSystem : String) (st : RefState) : Except String RefState :=
  if CoordSystem = "Spherical" ∨ CoordSystem = "SinhSpherical"
      ∨ CoordSystem = "SinhSphericalv2" then
    .ok (sphState st
      (if CoordSystem = "Spherical" then .var 0
       else if CoordSystem = "SinhSphericalv2" then rSinhv2E
       else rSinhE))
  else if CoordSystem = "Cylindrical" ∨ CoordSystem = "SinhCylindrical"
      ∨ CoordSystem = "SinhCylindricalv2" then
    .ok (cylState st
      (if CoordSystem = "Cylindrical" then .var 0
       else if CoordSystem = "SinhCylindricalv2" then rhoSinhv2E
       else rhoSinhE)
      (if CoordSystem = "Cylindrical" then .var 2
       else if CoordSystem = "SinhCylindricalv2" then zSinhv2E
       else zSinhE))
  else if CoordSystem = "SymTP" ∨ CoordSystem = "SinhSymTP" then
    .ok (tpState st (if CoordSystem = "SinhSymTP" then aaSinhE else .var 0))
  else if CoordSystem = "Cartesian" then
    .ok (cartState st)
  else
    .error ("CoordSystem == " ++ CoordSystem ++ " is not supported.")

/-- UnitVectors3D(): for each logical direction i, the row of partial
derivatives of the Cartesian map divided by the Euclidean norm of that row
(the norm accumulated from 0 exactly as the loop does; sympy simplify is
semantics-preserving and needs no structural counterpart). -/
def UnitVectors3D (st : RefState) : Fin 3 → Fin 3 → Expr :=
  fun i j =>
    .div (diffE i (st.xxCart j.castSucc))
      (.sqrt (.add (.add (.add (.num 0) (sqE (diffE i (st.xxCart 0))))
        (sqE (diffE i (st.xxCart 1)))) (sqE (diffE i (st.xxCart 2)))))

/-- The state right after selecting the named system starting from the
import-time state. -/
def activeState (cs : String) : RefState :=
  ((reference_metric cs initState).toOption).getD initState

/-- Partial derivative of the real semantics of an expression with respect
to coordinate i, at the point x: the honest Mathlib derivative of the map
t ↦ eval of e with x i replaced by t. -/
noncomputable def pderiv (p : PName → ℝ) (x : Fin 3 → ℝ) (i : Fin 3) (e : Expr) : ℝ :=
  deriv (fun t => evalE p (Function.update x i t) e) (x i)

/-- The per-branch local xxmin list (bound strings) of each system. -/
def xxminOf (cs : String) : List String :=
  if cs = "Spherical" then ["0.0", "0.0", "0.0"]
  else if cs = "SinhSpherical" ∨ cs = "SinhSphericalv2" then ["0.0", "0.0", "0.0"]
  else if cs = "Cylindrical" then ["0.0", "0.0", "params.ZMIN"]
  else if cs = "SinhCylindrical" ∨ cs = "SinhCylindricalv2" then ["0.0", "0.0", "-1.0"]
  else if cs = "SymTP" ∨ cs = "SinhSymTP" then ["0.0", "0.0", "0.0"]
  else if cs = "Cartesian" then ["params.xmin", "params.ymin", "params.zmin"]
  else []

/-- The per-branch local xxmax list (bound strings) of each system. -/
def xxmaxOf (cs : String) : List String :=
  if cs = "Spherical" then ["params.RMAX", "M_PI", "2.0*M_PI"]
  else if cs = "SinhSpherical" ∨ cs = "SinhSphericalv2" then ["1.0", "M_PI", "2.0*M_PI"]
  else if cs = "Cylindrical" then ["params.RHOMAX", "2.0*M_PI", "params.ZMAX"]
  else if cs = "SinhCylindrical" ∨ cs = "SinhCylindricalv2" then ["1.0", "2.0*M_PI", "1.0"]
  else if cs = "SymTP" ∨ cs = "SinhSymTP" then ["params.AMAX", "M_PI", "2.0*M_PI"]
  else if cs = "Cartesian" then ["params.xmax", "params.ymax", "params.zmax"]
  else []

/-- Real value of one bound string, given parameter values. -/
noncomputable def bval (p : PName → ℝ) (s : String) : ℝ :=
  if s = "0.0" then 0
  else if s = "1.0" then 1
  else if s = "-1.0" then -1
  else if s = "M_PI" then Real.pi
  else if s = "2.0*M_PI" then 2 * Real.pi
  else if s = "params.RMAX" then p .RMAX
  else if s = "params.RHOMAX" then p .RHOMAX
  else if s = "params.ZMIN" then p .ZMIN
  else if s = "params.ZMAX" then p .ZMAX
  else if s = "params.AMAX" then p .AMAX
  else if s = "params.xmin" then p .xmin
  else if s = "params.xmax" then p .xmax
  else if s = "params.ymin" then p .ymin
  else if s = "params.ymax" then p .ymax
  else if s = "params.zmin" then p .zmin
  else if s = "params.zmax" then p .zmax
  else 0

/-- Membership of a coordinate triple in the rectangular domain the branch
declares through its local xxmin/xxmax lists. -/
def InDomain (p : PName → ℝ) (cs : String) (x : Fin 3 → ℝ) : Prop :=
  ∀ i : Fin 3,
    bval p ((xxminOf cs).getD i "0.0") ≤ x i ∧ x i ≤ bval p ((xxmaxOf cs).getD i "0.0")

/-- The supported coordinate-system names, in source order. -/
def supportedSystems : List String :=
  ["Spherical", "SinhSpherical", "SinhSphericalv2",
   "Cylindrical", "SinhCylindrical", "SinhCylindricalv2",
   "SymTP", "SinhSymTP", "Cartesian"]

/-- An expression that does not mention coordinate i evaluates identically
when coordinate i is replaced. -/
theorem evalE_update_varFree (p : PName → ℝ) (x : Fin 3 → ℝ) (i : Fin 3) (t : ℝ) :
    ∀ e : Expr, varFree i e = true →
      evalE p (Function.update x i t) e = evalE p x e := by
  intro e
  induction e with
  | num n => intro _; rfl
  | var j =>
      intro h
      by_cases hj : j = i
      · simp [varFree, hj] at h
      · simp [evalE, Function.update_noteq hj]
  | par a => intro _; rfl
  | add a b iha ihb =>
      intro h
      simp only [varFree, Bool.and_eq_true] at h
      simp [evalE, iha h.1, ihb h.2]
  | mul a b iha ihb =>
      intro h
      simp only [varFree, Bool.and_eq_true] at h
      simp [evalE, iha h.1, ihb h.2]
  | neg a iha => intro h; simp only [varFree] at h; simp [evalE, iha h]
  | div a b iha ihb =>
      intro h
      simp only [varFree, Bool.and_eq_true] at h
      simp [evalE, iha h.1, ihb h.2]
  | sin a iha => intro h; simp only [varFree] at h; simp [evalE, iha h]
  | cos a iha => intro h; simp only [varFree] at h; simp [evalE, iha h]
  | exp a iha => intro h; simp only [varFree] at h; simp [evalE, iha h]
  | sqrt a iha => intro h; simp only [varFree] at h; simp [evalE, iha h]
  | atan2 a b iha ihb =>
      intro h
      simp only [varFree, Bool.and_eq_true] at h
      simp [evalE, iha h.1, ihb h.2]
  | acos a iha => intro h; simp only [varFree] at h; simp [evalE, iha h]

/-- The structural derivative of an expression with respect to a coordinate
it does not mention evaluates to zero. -/
theorem evalE_diffE_varFree (p : PName → ℝ) (x : Fin 3 → ℝ) (i : Fin 3) :
    ∀ e : Expr, varFree i e = true → evalE p x (diffE i e) = 0 := by
  intro e
  induction e with
  | num n => intro _; simp [diffE, evalE]
  | var j =>
      intro h
      by_cases hj : j = i
      · simp [varFree, hj] at h
      · simp [diffE, evalE, hj]
  | par a => intro _; simp [diffE, evalE]
  | add a b iha ihb =>
      intro h
      simp only [varFree, Bool.and_eq_true] at h
      simp [diffE, evalE, iha h.1, ihb h.2]
  | mul a b iha ihb =>
      intro h
      simp only [varFree, Bool.and_eq_true] at h
      simp [diffE, evalE, iha h.1, ihb h.2]
  | neg a iha => intro h; simp only [varFree] at h; simp [diffE, evalE, iha h]
  | div a b iha ihb =>
      intro h
      simp only [varFree, Bool.and_eq_true] at h
      simp [diffE, evalE, iha h.1, ihb h.2]
  | sin a iha => intro h; simp only [varFree] at h; simp [diffE, evalE, iha h]
  | cos a iha => intro h; simp only [varFree] at h; simp [diffE, evalE, iha h]
  | exp a iha => intro h; simp only [varFree] at h; simp [diffE, evalE, iha h]
  | sqrt a iha => intro h; simp only [varFree] at h; simp [diffE, evalE, iha h]
  | atan2 a b iha ihb =>
      intro h
      simp only [varFree, Bool.and_eq_true] at h
      simp [diffE, evalE, iha h.1, ihb h.2]
  | acos a iha => intro h; simp only [varFree] at h; simp [diffE, evalE, iha h]

/-- Correctness of the structural differentiator against the Mathlib
derivative: under the side conditions `Dok`, the map sending coordinate i
to the value of e has, at the current point, the derivative computed by
`diffE`. -/
theorem diffE_correct (p : PName → ℝ) (x : Fin 3 → ℝ) (i : Fin 3) :
    ∀ e : Expr, Dok p x e →
      HasDerivAt (fun t => evalE p (Function.update x i t) e)
        (evalE p x (diffE i e)) (x i) := by
  intro e
  induction e with
  | num n =>
      intro _
      simp only [evalE, diffE, Int.cast_zero]
      exact hasDerivAt_const _ _
  | var j =>
      intro _
      by_cases hj : j = i
      · subst hj
        simp only [evalE, diffE, if_pos rfl, Int.cast_one]
        simp only [Function.update_same]
        exact hasDerivAt_id' (x j)
      · simp only [evalE, diffE, if_neg hj, Int.cast_zero, Function.update_noteq hj]
        exact hasDerivAt_const _ _
  | par a =>
      intro _
      simp only [evalE, diffE, Int.cast_zero]
      exact hasDerivAt_const _ _
  | add a b iha ihb =>
      intro h
      simp only [Dok] at h
      simp only [evalE, diffE]
      exact (iha h.1).add (ihb h.2)
  | mul a b iha ihb =>
      intro h
      simp only [Dok] at h
      have h' := (iha h.1).mul (ihb h.2)
      simp only [Function.update_eq_self] at h'
      simp only [evalE, diffE]
      exact h'
  | neg a iha =>
      intro h
      simp only [Dok] at h
      simp only [evalE, diffE]
      exact (iha h).neg
  | div a b iha ihb =>
      intro h
      simp only [Dok] at h
      obtain ⟨ha, hb, hb0⟩ := h
      have h' := (iha ha).div (ihb hb) (by simpa [Function.update_eq_self] using hb0)
      simp only [Function.update_eq_self] at h'
      simp only [evalE, diffE]
      convert h' using 1
      ring
  | sin a iha =>
      intro h
      simp only [Dok] at h
      have h' := (iha h).sin
      simp only [Function.update_eq_self] at h'
      simp only [evalE, diffE]
      exact h'
  | cos a iha =>
      intro h
      simp only [Dok] at h
      have h' := (iha h).cos
      simp only [Function.update_eq_self] at h'
      simp only [evalE, diffE]
      convert h' using 1
      ring
  | exp a iha =>
      intro h
      simp only [Dok] at h
      have h' := (iha h).exp
      simp only [Function.update_eq_self] at h'
      simp only [evalE, diffE]
      exact h'
  | sqrt a iha =>
      intro h
      simp only [Dok] at h
      obtain ⟨ha, h0⟩ := h
      have h' := (iha ha).sqrt (by simpa [Function.update_eq_self] using h0)
      simp only [Function.update_eq_self] at h'
      simp only [evalE, diffE]
      convert h' using 1
  | atan2 a b iha ihb =>
      intro h
      simp only [Dok] at h
  | acos a iha =>
      intro h
      simp only [Dok] at h

/-- Under the `Dok` side conditions, the honest partial derivative of the
value of an expression is the value of its structural derivative. -/
theorem pderiv_eq (p : PName → ℝ) (x : Fin 3 → ℝ) (i : Fin 3) {e : Expr}
    (h : Dok p x e) : pderiv p x i e = evalE p x (diffE i e) :=
  (diffE_correct p x i e h).deriv

/-- Writing the same three entries twice is the same as writing them once. -/
theorem updVec_idem (v : Fin 4 → Expr) (a b c : Expr) :
    updVec (updVec v a b c) a b c = updVec v a b c := by
  funext i
  unfold updVec
  split_ifs <;> rfl

/-- Re-running the spherical-family branch on its own output is a no-op. -/
theorem sphState_idem (st : RefState) (r : Expr) :
    sphState (sphState st r) r = sphState st r := by
  unfold sphState
  simp only [updVec_idem]

/-- Re-running the cylindrical-family branch on its own output is a no-op. -/
theorem cylState_idem (st : RefState) (rho z : Expr) :
    cylState (cylState st rho z) rho z = cylState st rho z := by
  unfold cylState
  simp only [updVec_idem]

/-- Re-running the SymTP-family branch on its own output is a no-op. -/
theorem tpState_idem (st : RefState) (A : Expr) :
    tpState (tpState st A) A = tpState st A := by
  unfold tpState
  simp only [updVec_idem]

/-- Re-running the Cartesian branch on its own output is a no-op. -/
theorem cartState_idem (st : RefState) :
    cartState (cartState st) = cartState st := by
  unfold cartState
  simp only [updVec_idem]

/-- C4: in the Cylindrical, SinhCylindrical, SinhCylindricalv2, SymTP,
SinhSymTP and Cartesian branches, the polar-angle entry xxSph[1] is set to
the expression cos(z/r) with r the derived spherical radius xxSph[0] and z
the Cartesian height xxCart[2], and in particular not to arccos(z/r);
identical in form across all three branch groups. -/
theorem C4_polar_angle_is_cos_not_arccos :
    ((activeState "Cylindrical").xxSph 1
        = Expr.cos (.div ((activeState "Cylindrical").xxCart 2)
            ((activeState "Cylindrical").xxSph 0))
      ∧ (activeState "Cylindrical").xxSph 1
        ≠ Expr.acos (.div ((activeState "Cylindrical").xxCart 2)
            ((activeState "Cylindrical").xxSph 0)))
    ∧ ((activeState "SinhCylindrical").xxSph 1
        = Expr.cos (.div ((activeState "SinhCylindrical").xxCart 2)
            ((activeState "SinhCylindrical").xxSph 0))
      ∧ (activeState "SinhCylindrical").xxSph 1
        ≠ Expr.acos (.div ((activeState "SinhCylindrical").xxCart 2)
            ((activeState "SinhCylindrical").xxSph 0)))
    ∧ ((activeState "SinhCylindricalv2").xxSph 1
        = Expr.cos (.div ((activeState "SinhCylindricalv2").xxCart 2)
            ((activeState "SinhCylindricalv2").xxSph 0))
      ∧ (activeState "SinhCylindricalv2").xxSph 1
        ≠ Expr.acos (.div ((activeState "SinhCylindricalv2").xxCart 2)
            ((activeState "SinhCylindricalv2").xxSph 0)))
    ∧ ((activeState "SymTP").xxSph 1
        = Expr.cos (.div ((activeState "SymTP").xxCart 2)
            ((activeState "SymTP").xxSph 0))
      ∧ (activeState "SymTP").xxSph 1
        ≠ Expr.acos (.div ((activeState "SymTP").xxCart 2)
            ((activeState "SymTP").xxSph 0)))
    ∧ ((activeState "SinhSymTP").xxSph 1
        = Expr.cos (.div ((activeState "SinhSymTP").xxCart 2)
            ((activeState "SinhSymTP").xxSph 0))
      ∧ (activeState "SinhSymTP").xxSph 1
        ≠ Expr.acos (.div ((activeState "SinhSymTP").xxCart 2)
            ((activeState "SinhSymTP").xxSph 0)))
    ∧ ((activeState "Cartesian").xxSph 1
        = Expr.cos (.div ((activeState "Cartesian").xxCart 2)
            ((activeState "Cartesian").xxSph 0))
      ∧ (activeState "Cartesian").xxSph 1
        ≠ Expr.acos (.div ((activeState "Cartesian").xxCart 2)
            ((activeState "Cartesian").xxSph 0))) := by
  refine ⟨⟨rfl, by decide⟩, ⟨rfl, by decide⟩, ⟨rfl, by decide⟩,
    ⟨rfl, by decide⟩, ⟨rfl, by decide⟩, ⟨rfl, by decide⟩⟩

/-- C6: after selecting Cartesian, the three Cartesian components are the
coordinate symbols themselves and the three scale factors are the literal 1. -/
theorem C6_cartesian_identity_map :
    (activeState "Cartesian").xxCart 0 = Expr.var 0
    ∧ (activeState "Cartesian").xxCart 1 = Expr.var 1
    ∧ (activeState "Cartesian").xxCart 2 = Expr.var 2
    ∧ (activeState "Cartesian").scalefactor_orthog 0 = Expr.num 1
    ∧ (activeState "Cartesian").scalefactor_orthog 1 = Expr.num 1
    ∧ (activeState "Cartesian").scalefactor_orthog 2 = Expr.num 1 := by
  exact ⟨rfl, rfl, rfl, rfl, rfl, rfl⟩

/-- C7: a name outside the supported set makes reference_metric fail
fatally, reporting that name in the printed message (no fallback to a
default system), while every supported name succeeds. -/
theorem C7_unsupported_name_is_fatal :
    (∀ cs, cs ∉ supportedSystems → ∀ st,
      reference_metric cs st
        = .error ("CoordSystem == " ++ cs ++ " is not supported."))
    ∧ (∀ cs ∈ supportedSystems, ∀ st, (reference_metric cs st).isOk = true) := by
  constructor
  · intro cs h st
    simp only [supportedSystems, List.mem_cons, List.not_mem_nil, or_false] at h
    push_neg at h
    obtain ⟨h1, h2, h3, h4, h5, h6, h7, h8, h9⟩ := h
    unfold reference_metric
    split_ifs with g1 g2 g3 g4 <;> tauto
  · intro cs h st
    fin_cases h <;> rfl

/-- Witness for C7 at the names NotARealSystem and Spherical. -/
theorem C7_witness :
    reference_metric "NotARealSystem" initState
      = .error ("CoordSystem == " ++ "NotARealSystem" ++ " is not supported.")
    ∧ (reference_metric "Spherical" initState).isOk = true :=
  ⟨C7_unsupported_name_is_fatal.1 "NotARealSystem" (by decide) initState,
   C7_unsupported_name_is_fatal.2 "Spherical" (by decide) initState⟩

/-- C9: selecting the same coordinate system twice in a row is idempotent;
the second call reproduces exactly the state left by the first call. -/
theorem C9_same_name_idempotent :
    ∀ cs st₀ st, reference_metric cs st₀ = .ok st →
      reference_metric cs st = .ok st := by
  intro cs st₀ st h
  unfold reference_metric at h ⊢
  split_ifs at h ⊢ <;>
    first
      | (injection h with h; subst h; rw [sphState_idem])
      | (injection h with h; subst h; rw [cylState_idem])
      | (injection h with h; subst h; rw [tpState_idem])
      | (injection h with h; subst h; rw [cartState_idem])
      | injection h

/-- Witness for C9 with the Spherical system. -/
theorem C9_witness :
    reference_metric "Spherical" (activeState "Spherical")
      = .ok (activeState "Spherical") :=
  C9_same_name_idempotent "Spherical" initState (activeState "Spherical") rfl

/-- C10: no branch writes index 3 of xxCart, xxSph or scalefactor_orthog;
a successful call passes the fourth slot of each array through unchanged
(in particular it stays the zero it was initialized to). -/
theorem C10_index3_untouched :
    ∀ cs st₀ st, reference_metric cs st₀ = .ok st →
      st.xxCart 3 = st₀.xxCart 3 ∧ st.xxSph 3 = st₀.xxSph 3
      ∧ st.scalefactor_orthog 3 = st₀.scalefactor_orthog 3 := by
  intro cs st₀ st h
  unfold reference_metric at h
  split_ifs at h <;>
    first
      | (injection h with h; subst h; exact ⟨rfl, rfl, rfl⟩)
      | injection h

/-- Witness for C10: after selecting Spherical from the import-time state,
the fourth slots are still the import-time zeros. -/
theorem C10_witness :
    (activeState "Spherical").xxCart 3 = initState.xxCart 3
    ∧ (activeState "Spherical").xxSph 3 = initState.xxSph 3
    ∧ (activeState "Spherical").scalefactor_orthog 3
        = initState.scalefactor_orthog 3 :=
  C10_index3_untouched "Spherical" initState (activeState "Spherical") rfl

/-- C3 (recording the divergence): a successful selection populates the
three arrays (xxCart 0 is no longer the import-time zero), and the branch
computes the bound lists, but the module-level xxmin/xxmax stay empty
because the Python function binds them as locals. -/
theorem C3_xxmin_xxmax_not_published :
    reference_metric "Spherical" initState = .ok (activeState "Spherical")
    ∧ (activeState "Spherical").xxmin = ([] : List String)
    ∧ (activeState "Spherical").xxmax = ([] : List String)
    ∧ xxminOf "Spherical" = ["0.0", "0.0", "0.0"]
    ∧ xxmaxOf "Spherical" = ["params.RMAX", "M_PI", "2.0*M_PI"]
    ∧ (activeState "Spherical").xxCart 0 ≠ initState.xxCart 0 := by
  refine ⟨rfl, rfl, rfl, rfl, rfl, by decide⟩

/-- The denominator exp(1/w) - exp(-1/w) of the sinh reparametrization is
nonzero whenever w is. -/
theorem expDen_ne (w : ℝ) (hw : w ≠ 0) :
    Real.exp (1 / w) - Real.exp (-1 / w) ≠ 0 := by
  rw [sub_ne_zero]
  intro h
  rw [Real.exp_eq_exp, neg_div] at h
  have h0 : (1:ℝ)/w = 0 := by linarith
  exact one_div_ne_zero hw h0

/-- Value of the sinh reparametrization quotient. -/
theorem evalE_sinhFrac (p : PName → ℝ) (x : Fin 3 → ℝ) (v : Expr) (w : PName) :
    evalE p x (sinhFrac v w)
      = (Real.exp (evalE p x v / p w) - Real.exp (-(evalE p x v) / p w))
        / (Real.exp (1 / p w) - Real.exp (-1 / p w)) := by
  simp [sinhFrac, sinhDen, evalE, sub_eq_add_neg]

/-- Differentiation side conditions hold for the sinh quotient once the
width parameter is nonzero. -/
theorem Dok_sinhFrac (p : PName → ℝ) (x : Fin 3 → ℝ) (v : Expr) (w : PName)
    (hv : Dok p x v) (hw : p w ≠ 0) : Dok p x (sinhFrac v w) := by
  refine ⟨⟨⟨hv, trivial, hw⟩, ⟨hv, trivial, hw⟩⟩,
    ⟨⟨trivial, trivial, hw⟩, ⟨trivial, trivial, hw⟩⟩, ?_⟩
  have h := expDen_ne (p w) hw
  simpa [sinhDen, evalE, sub_eq_add_neg] using h

/-- Differentiation side conditions for the SinhSpherical radius. -/
theorem Dok_rSinhE (p : PName → ℝ) (x : Fin 3 → ℝ) (hw : p .SINHW ≠ 0) :
    Dok p x rSinhE :=
  ⟨trivial, Dok_sinhFrac p x (.var 0) .SINHW trivial hw⟩

/-- The SinhSpherical radius evaluates to AMPL*sinh(xx0/SINHW)/sinh(1/SINHW). -/
theorem evalE_rSinhE (p : PName → ℝ) (x : Fin 3 → ℝ) :
    evalE p x rSinhE
      = p .AMPL * Real.sinh (x 0 / p .SINHW) / Real.sinh (1 / p .SINHW) := by
  rw [Real.sinh_eq, Real.sinh_eq, mul_div_assoc]
  have hc : ∀ n d : ℝ, n / 2 / (d / 2) = n / d := by intro n d; field_simp
  rw [hc]
  simp only [rSinhE, evalE, evalE_sinhFrac, neg_div]
  push_cast
  ring

/-- C5: SinhSpherical sets the physical radius xxSph[0] to the value
AMPL*sinh(xx0/SINHW)/sinh(1/SINHW) (stored in the equivalent exp form),
sets scalefactor_orthog to (dr/dxx0, r, r*sin(xx1)), the stored first
scale factor is the honest partial derivative of the radius, and that
scale factor syntactically mentions both SINHW and AMPL. -/
theorem C5_sinhspherical_radius_and_scalefactor :
    ∀ (p : PName → ℝ) (x : Fin 3 → ℝ), p .SINHW ≠ 0 →
      evalE p x ((activeState "SinhSpherical").xxSph 0)
        = p .AMPL * Real.sinh (x 0 / p .SINHW) / Real.sinh (1 / p .SINHW)
      ∧ (activeState "SinhSpherical").scalefactor_orthog 0 = diffE 0 rSinhE
      ∧ (activeState "SinhSpherical").scalefactor_orthog 1 = rSinhE
      ∧ (activeState "SinhSpherical").scalefactor_orthog 2
          = Expr.mul rSinhE (.sin (.var 1))
      ∧ evalE p x ((activeState "SinhSpherical").scalefactor_orthog 0)
          = pderiv p x 0 ((activeState "SinhSpherical").xxSph 0)
      ∧ dependsOn .SINHW ((activeState "SinhSpherical").scalefactor_orthog 0) = true
      ∧ dependsOn .AMPL ((activeState "SinhSpherical").scalefactor_orthog 0) = true := by
  intro p x hw
  refine ⟨evalE_rSinhE p x, rfl, rfl, rfl, ?_, by decide, by decide⟩
  exact (pderiv_eq p x 0 (Dok_rSinhE p x hw)).symm

/-- Witness for C5 with all parameters and coordinates set to 1. -/
theorem C5_witness :
    evalE (fun _ => 1) (fun _ => 1) ((activeState "SinhSpherical").xxSph 0)
      = 1 * Real.sinh ((1:ℝ) / 1) / Real.sinh (1 / 1)
    ∧ (activeState "SinhSpherical").scalefactor_orthog 0 = diffE 0 rSinhE
    ∧ (activeState "SinhSpherical").scalefactor_orthog 1 = rSinhE
    ∧ (activeState "SinhSpherical").scalefactor_orthog 2
        = Expr.mul rSinhE (.sin (.var 1))
    ∧ evalE (fun _ => 1) (fun _ => 1) ((activeState "SinhSpherical").scalefactor_orthog 0)
        = pderiv (fun _ => 1) (fun _ => 1) 0 ((activeState "SinhSpherical").xxSph 0)
    ∧ dependsOn .SINHW ((activeState "SinhSpherical").scalefactor_orthog 0) = true
    ∧ dependsOn .AMPL ((activeState "SinhSpherical").scalefactor_orthog 0) = true :=
  C5_sinhspherical_radius_and_scalefactor (fun _ => 1) (fun _ => 1) (by norm_num)

/- Derivative-evaluation lemmas for the spherical-type Cartesian map
   (shared by the Spherical family and, with r := AA, by the first two
   Cartesian components of the SymTP family). -/

theorem sphD00 (p : PName → ℝ) (x : Fin 3 → ℝ) (r : Expr) :
    evalE p x (diffE 0 (sphCart0 r))
      = evalE p x (diffE 0 r) * Real.sin (x 1) * Real.cos (x 2) := by
  simp [sphCart0, diffE, evalE]
theorem sphD01 (p : PName → ℝ) (x : Fin 3 → ℝ) (r : Expr) :
    evalE p x (diffE 0 (sphCart1 r))
      = evalE p x (diffE 0 r) * Real.sin (x 1) * Real.sin (x 2) := by
  simp [sphCart1, diffE, evalE]
theorem sphD02 (p : PName → ℝ) (x : Fin 3 → ℝ) (r : Expr) :
    evalE p x (diffE 0 (sphCart2 r))
      = evalE p x (diffE 0 r) * Real.cos (x 1) := by
  simp [sphCart2, diffE, evalE]
theorem sphD10 (p : PName → ℝ) (x : Fin 3 → ℝ) (r : Expr) (h1 : varFree 1 r = true) :
    evalE p x (diffE 1 (sphCart0 r))
      = evalE p x r * Real.cos (x 1) * Real.cos (x 2) := by
  have hz := evalE_diffE_varFree p x 1 r h1
  simp [sphCart0, diffE, evalE, hz]
theorem sphD11 (p : PName → ℝ) (x : Fin 3 → ℝ) (r : Expr) (h1 : varFree 1 r = true) :
    evalE p x (diffE 1 (sphCart1 r))
      = evalE p x r * Real.cos (x 1) * Real.sin (x 2) := by
  have hz := evalE_diffE_varFree p x 1 r h1
  simp [sphCart1, diffE, evalE, hz]
theorem sphD12 (p : PName → ℝ) (x : Fin 3 → ℝ) (r : Expr) (h1 : varFree 1 r = true) :
    evalE p x (diffE 1 (sphCart2 r))
      = -(evalE p x r * Real.sin (x 1)) := by
  have hz := evalE_diffE_varFree p x 1 r h1
  simp [sphCart2, diffE, evalE, hz]
theorem sphD20 (p : PName → ℝ) (x : Fin 3 → ℝ) (r : Expr) (h2 : varFree 2 r = true) :
    evalE p x (diffE 2 (sphCart0 r))
      = -(evalE p x r * Real.sin (x 1) * Real.sin (x 2)) := by
  have hz := evalE_diffE_varFree p x 2 r h2
  simp [sphCart0, diffE, evalE, hz]
theorem sphD21 (p : PName → ℝ) (x : Fin 3 → ℝ) (r : Expr) (h2 : varFree 2 r = true) :
    evalE p x (diffE 2 (sphCart1 r))
      = evalE p x r * Real.sin (x 1) * Real.cos (x 2) := by
  have hz := evalE_diffE_varFree p x 2 r h2
  simp [sphCart1, diffE, evalE, hz]
theorem sphD22 (p : PName → ℝ) (x : Fin 3 → ℝ) (r : Expr) (h2 : varFree 2 r = true) :
    evalE p x (diffE 2 (sphCart2 r)) = 0 := by
  have hz := evalE_diffE_varFree p x 2 r h2
  simp [sphCart2, diffE, evalE, hz]

theorem sphState_cartC0 (st : RefState) (r : Expr) :
    (sphState st r).xxCart (Fin.castSucc 0) = sphCart0 r := rfl
theorem sphState_cartC1 (st : RefState) (r : Expr) :
    (sphState st r).xxCart (Fin.castSucc 1) = sphCart1 r := rfl
theorem sphState_cartC2 (st : RefState) (r : Expr) :
    (sphState st r).xxCart (Fin.castSucc 2) = sphCart2 r := rfl
theorem sphState_sfC0 (st : RefState) (r : Expr) :
    (sphState st r).scalefactor_orthog (Fin.castSucc 0) = diffE 0 r := rfl
theorem sphState_sfC1 (st : RefState) (r : Expr) :
    (sphState st r).scalefactor_orthog (Fin.castSucc 1) = r := rfl
theorem sphState_sfC2 (st : RefState) (r : Expr) :
    (sphState st r).scalefactor_orthog (Fin.castSucc 2) = .mul r (.sin (.var 1)) := rfl

theorem C1_sph_branch (p : PName → ℝ) (x : Fin 3 → ℝ) (st₀ : RefState) (r : Expr)
    (h1 : varFree 1 r = true) (h2 : varFree 2 r = true) (hD : Dok p x r)
    (hR : 0 ≤ evalE p x r) (hdR : 0 ≤ evalE p x (diffE 0 r))
    (hsin : 0 ≤ Real.sin (x 1)) :
    (evalE p x ((sphState st₀ r).scalefactor_orthog (Fin.castSucc 0))
        = Real.sqrt (∑ j : Fin 3,
            (pderiv p x 0 ((sphState st₀ r).xxCart j.castSucc))^2))
    ∧ (evalE p x ((sphState st₀ r).scalefactor_orthog (Fin.castSucc 1))
        = Real.sqrt (∑ j : Fin 3,
            (pderiv p x 1 ((sphState st₀ r).xxCart j.castSucc))^2))
    ∧ (evalE p x ((sphState st₀ r).scalefactor_orthog (Fin.castSucc 2))
        = Real.sqrt (∑ j : Fin 3,
            (pderiv p x 2 ((sphState st₀ r).xxCart j.castSucc))^2)) := by
  have hD0 : Dok p x (sphCart0 r) := ⟨⟨hD, trivial⟩, trivial⟩
  have hD1 : Dok p x (sphCart1 r) := ⟨⟨hD, trivial⟩, trivial⟩
  have hD2 : Dok p x (sphCart2 r) := ⟨hD, trivial⟩
  have hp1 := Real.sin_sq_add_cos_sq (x 1)
  have hp2 := Real.sin_sq_add_cos_sq (x 2)
  refine ⟨?_, ?_, ?_⟩
  · rw [Fin.sum_univ_three, sphState_cartC0, sphState_cartC1, sphState_cartC2,
      sphState_sfC0, pderiv_eq p x 0 hD0, pderiv_eq p x 0 hD1, pderiv_eq p x 0 hD2,
      sphD00, sphD01, sphD02]
    set dR := evalE p x (diffE 0 r)
    set s1 := Real.sin (x 1)
    set c1 := Real.cos (x 1)
    set s2 := Real.sin (x 2)
    set c2 := Real.cos (x 2)
    have hsum : (dR*s1*c2)^2 + (dR*s1*s2)^2 + (dR*c1)^2 = dR^2 := by
      linear_combination dR^2*hp1 + dR^2*s1^2*hp2
    rw [hsum, Real.sqrt_sq hdR]
  · rw [Fin.sum_univ_three, sphState_cartC0, sphState_cartC1, sphState_cartC2,
      sphState_sfC1, pderiv_eq p x 1 hD0, pderiv_eq p x 1 hD1, pderiv_eq p x 1 hD2,
      sphD10 p x r h1, sphD11 p x r h1, sphD12 p x r h1]
    set R := evalE p x r
    set s1 := Real.sin (x 1)
    set c1 := Real.cos (x 1)
    set s2 := Real.sin (x 2)
    set c2 := Real.cos (x 2)
    have hsum : (R*c1*c2)^2 + (R*c1*s2)^2 + (-(R*s1))^2 = R^2 := by
      linear_combination R^2*hp1 + R^2*c1^2*hp2
    rw [hsum, Real.sqrt_sq hR]
  · rw [Fin.sum_univ_three, sphState_cartC0, sphState_cartC1, sphState_cartC2,
      sphState_sfC2, pderiv_eq p x 2 hD0, pderiv_eq p x 2 hD1, pderiv_eq p x 2 hD2,
      sphD20 p x r h2, sphD21 p x r h2, sphD22 p x r h2]
    simp only [evalE]
    set R := evalE p x r
    set s1 := Real.sin (x 1)
    set s2 := Real.sin (x 2)
    set c2 := Real.cos (x 2)
    have hsum : (-(R*s1*s2))^2 + (R*s1*c2)^2 + (0:ℝ)^2 = (R*s1)^2 := by
      linear_combination R^2*s1^2*hp2
    rw [hsum, Real.sqrt_sq (mul_nonneg hR hsin)]

/- Derivative-evaluation lemmas and the scale-factor/norm identity for the
   cylindrical-family branch. -/

theorem cylD00 (p : PName → ℝ) (x : Fin 3 → ℝ) (rho : Expr) :
    evalE p x (diffE 0 (cylCart0 rho))
      = evalE p x (diffE 0 rho) * Real.cos (x 1) := by
  simp [cylCart0, diffE, evalE]

theorem cylD01 (p : PName → ℝ) (x : Fin 3 → ℝ) (rho : Expr) :
    evalE p x (diffE 0 (cylCart1 rho))
      = evalE p x (diffE 0 rho) * Real.sin (x 1) := by
  simp [cylCart1, diffE, evalE]

theorem cylD10 (p : PName → ℝ) (x : Fin 3 → ℝ) (rho : Expr) (h1 : varFree 1 rho = true) :
    evalE p x (diffE 1 (cylCart0 rho))
      = -(evalE p x rho * Real.sin (x 1)) := by
  have hz := evalE_diffE_varFree p x 1 rho h1
  simp [cylCart0, diffE, evalE, hz]

theorem cylD11 (p : PName → ℝ) (x : Fin 3 → ℝ) (rho : Expr) (h1 : varFree 1 rho = true) :
    evalE p x (diffE 1 (cylCart1 rho))
      = evalE p x rho * Real.cos (x 1) := by
  have hz := evalE_diffE_varFree p x 1 rho h1
  simp [cylCart1, diffE, evalE, hz]

theorem cylState_cartC0 (st : RefState) (rho z : Expr) :
    (cylState st rho z).xxCart (Fin.castSucc 0) = cylCart0 rho := rfl
theorem cylState_cartC1 (st : RefState) (rho z : Expr) :
    (cylState st rho z).xxCart (Fin.castSucc 1) = cylCart1 rho := rfl
theorem cylState_cartC2 (st : RefState) (rho z : Expr) :
    (cylState st rho z).xxCart (Fin.castSucc 2) = z := rfl
theorem cylState_sfC0 (st : RefState) (rho z : Expr) :
    (cylState st rho z).scalefactor_orthog (Fin.castSucc 0) = diffE 0 rho := rfl
theorem cylState_sfC1 (st : RefState) (rho z : Expr) :
    (cylState st rho z).scalefactor_orthog (Fin.castSucc 1) = rho := rfl
theorem cylState_sfC2 (st : RefState) (rho z : Expr) :
    (cylState st rho z).scalefactor_orthog (Fin.castSucc 2) = diffE 2 z := rfl

theorem C1_cyl_branch (p : PName → ℝ) (x : Fin 3 → ℝ) (st₀ : RefState) (rho z : Expr)
    (h1r : varFree 1 rho = true) (h2r : varFree 2 rho = true)
    (h0z : varFree 0 z = true) (h1z : varFree 1 z = true)
    (hDr : Dok p x rho) (hDz : Dok p x z)
    (hRho : 0 ≤ evalE p x rho) (hdRho : 0 ≤ evalE p x (diffE 0 rho))
    (hdZ : 0 ≤ evalE p x (diffE 2 z)) :
    (evalE p x ((cylState st₀ rho z).scalefactor_orthog (Fin.castSucc 0))
        = Real.sqrt (∑ j : Fin 3,
            (pderiv p x 0 ((cylState st₀ rho z).xxCart j.castSucc))^2))
    ∧ (evalE p x ((cylState st₀ rho z).scalefactor_orthog (Fin.castSucc 1))
        = Real.sqrt (∑ j : Fin 3,
            (pderiv p x 1 ((cylState st₀ rho z).xxCart j.castSucc))^2))
    ∧ (evalE p x ((cylState st₀ rho z).scalefactor_orthog (Fin.castSucc 2))
        = Real.sqrt (∑ j : Fin 3,
            (pderiv p x 2 ((cylState st₀ rho z).xxCart j.castSucc))^2)) := by
  have hD0 : Dok p x (cylCart0 rho) := ⟨hDr, trivial⟩
  have hD1 : Dok p x (cylCart1 rho) := ⟨hDr, trivial⟩
  have hp1 := Real.sin_sq_add_cos_sq (x 1)
  refine ⟨?_, ?_, ?_⟩
  · rw [Fin.sum_univ_three, cylState_cartC0, cylState_cartC1, cylState_cartC2,
      cylState_sfC0, pderiv_eq p x 0 hD0, pderiv_eq p x 0 hD1, pderiv_eq p x 0 hDz,
      cylD00, cylD01, evalE_diffE_varFree p x 0 z h0z]
    set dR := evalE p x (diffE 0 rho)
    set s1 := Real.sin (x 1)
    set c1 := Real.cos (x 1)
    have hsum : (dR*c1)^2 + (dR*s1)^2 + (0:ℝ)^2 = dR^2 := by
      linear_combination dR^2*hp1
    rw [hsum, Real.sqrt_sq hdRho]
  · rw [Fin.sum_univ_three, cylState_cartC0, cylState_cartC1, cylState_cartC2,
      cylState_sfC1, pderiv_eq p x 1 hD0, pderiv_eq p x 1 hD1, pderiv_eq p x 1 hDz,
      cylD10 p x rho h1r, cylD11 p x rho h1r, evalE_diffE_varFree p x 1 z h1z]
    set R := evalE p x rho
    set s1 := Real.sin (x 1)
    set c1 := Real.cos (x 1)
    have hsum : (-(R*s1))^2 + (R*c1)^2 + (0:ℝ)^2 = R^2 := by
      linear_combination R^2*hp1
    rw [hsum, Real.sqrt_sq hRho]
  · have hz0 : evalE p x (diffE 2 (cylCart0 rho)) = 0 :=
      evalE_diffE_varFree p x 2 _ (by simp [cylCart0, varFree, h2r])
    have hz1 : evalE p x (diffE 2 (cylCart1 rho)) = 0 :=
      evalE_diffE_varFree p x 2 _ (by simp [cylCart1, varFree, h2r])
    rw [Fin.sum_univ_three, cylState_cartC0, cylState_cartC1, cylState_cartC2,
      cylState_sfC2, pderiv_eq p x 2 hD0, pderiv_eq p x 2 hD1, pderiv_eq p x 2 hDz,
      hz0, hz1]
    set dZ := evalE p x (diffE 2 z)
    have hsum : (0:ℝ)^2 + (0:ℝ)^2 + dZ^2 = dZ^2 := by ring
    rw [hsum, Real.sqrt_sq hdZ]

/- Projection, derivative-evaluation and norm lemmas for the SymTP-family
   branch. -/

theorem tpState_cartC0 (st : RefState) (A : Expr) :
    (tpState st A).xxCart (Fin.castSucc 0) = sphCart0 A := rfl
theorem tpState_cartC1 (st : RefState) (A : Expr) :
    (tpState st A).xxCart (Fin.castSucc 1) = sphCart1 A := rfl
theorem tpState_cartC2 (st : RefState) (A : Expr) :
    (tpState st A).xxCart (Fin.castSucc 2) = tpCart2 A := rfl
theorem tpState_sfC0 (st : RefState) (A : Expr) :
    (tpState st A).scalefactor_orthog (Fin.castSucc 0)
      = .div (.mul (diffE 0 A) (var1E A)) (var2E A) := rfl
theorem tpState_sfC1 (st : RefState) (A : Expr) :
    (tpState st A).scalefactor_orthog (Fin.castSucc 1) = var1E A := rfl
theorem tpState_sfC2 (st : RefState) (A : Expr) :
    (tpState st A).scalefactor_orthog (Fin.castSucc 2)
      = .mul A (.sin (.var 1)) := rfl

-- value lemmas
theorem evalE_var1E (p : PName → ℝ) (x : Fin 3 → ℝ) (A : Expr) :
    evalE p x (var1E A)
      = Real.sqrt (evalE p x A * evalE p x A
          + (p .bScale * Real.sin (x 1)) * (p .bScale * Real.sin (x 1))) := by
  simp [var1E, sqE, evalE]

theorem evalE_var2E (p : PName → ℝ) (x : Fin 3 → ℝ) (A : Expr) :
    evalE p x (var2E A)
      = Real.sqrt (evalE p x A * evalE p x A + p .bScale * p .bScale) := by
  simp [var2E, sqE, evalE]

theorem tpD02 (p : PName → ℝ) (x : Fin 3 → ℝ) (A : Expr) (hb : p .bScale ≠ 0) :
    evalE p x (diffE 0 (tpCart2 A))
      = evalE p x A * evalE p x (diffE 0 A)
          / Real.sqrt (evalE p x A * evalE p x A + p .bScale * p .bScale)
          * Real.cos (x 1) := by
  have harg : (0:ℝ) < evalE p x A * evalE p x A + p .bScale * p .bScale :=
    add_pos_of_nonneg_of_pos (mul_self_nonneg _) (mul_self_pos.mpr hb)
  have hS : Real.sqrt (evalE p x A * evalE p x A + p .bScale * p .bScale) ≠ 0 := by
    rw [Ne, Real.sqrt_eq_zero (le_of_lt harg)]
    exact ne_of_gt harg
  simp only [tpCart2, var2E, sqE, diffE, evalE]
  field_simp
  ring

theorem tpD12 (p : PName → ℝ) (x : Fin 3 → ℝ) (A : Expr) (h1A : varFree 1 A = true) :
    evalE p x (diffE 1 (tpCart2 A))
      = -(Real.sqrt (evalE p x A * evalE p x A + p .bScale * p .bScale)
          * Real.sin (x 1)) := by
  have hz := evalE_diffE_varFree p x 1 A h1A
  simp [tpCart2, var2E, sqE, diffE, evalE, hz]

theorem tpD22 (p : PName → ℝ) (x : Fin 3 → ℝ) (A : Expr) (h2A : varFree 2 A = true) :
    evalE p x (diffE 2 (tpCart2 A)) = 0 :=
  evalE_diffE_varFree p x 2 _ (by simp [tpCart2, var2E, sqE, varFree, h2A])

theorem C1_tp_branch (p : PName → ℝ) (x : Fin 3 → ℝ) (st₀ : RefState) (A : Expr)
    (h1A : varFree 1 A = true) (h2A : varFree 2 A = true) (hDA : Dok p x A)
    (hA : 0 ≤ evalE p x A) (hdA : 0 ≤ evalE p x (diffE 0 A))
    (hb : 0 < p .bScale) (hsin : 0 ≤ Real.sin (x 1)) :
    (evalE p x ((tpState st₀ A).scalefactor_orthog (Fin.castSucc 0))
        = Real.sqrt (∑ j : Fin 3,
            (pderiv p x 0 ((tpState st₀ A).xxCart j.castSucc))^2))
    ∧ (evalE p x ((tpState st₀ A).scalefactor_orthog (Fin.castSucc 1))
        = Real.sqrt (∑ j : Fin 3,
            (pderiv p x 1 ((tpState st₀ A).xxCart j.castSucc))^2))
    ∧ (evalE p x ((tpState st₀ A).scalefactor_orthog (Fin.castSucc 2))
        = Real.sqrt (∑ j : Fin 3,
            (pderiv p x 2 ((tpState st₀ A).xxCart j.castSucc))^2)) := by
  have hbne : p .bScale ≠ 0 := ne_of_gt hb
  have harg : (0:ℝ) < evalE p x A * evalE p x A + p .bScale * p .bScale :=
    add_pos_of_nonneg_of_pos (mul_self_nonneg _) (mul_self_pos.mpr hbne)
  have hD0 : Dok p x (sphCart0 A) := ⟨⟨hDA, trivial⟩, trivial⟩
  have hD1 : Dok p x (sphCart1 A) := ⟨⟨hDA, trivial⟩, trivial⟩
  have hD2 : Dok p x (tpCart2 A) :=
    ⟨⟨⟨⟨hDA, hDA⟩, ⟨trivial, trivial⟩⟩, ne_of_gt harg⟩, trivial⟩
  have hp1 := Real.sin_sq_add_cos_sq (x 1)
  have hp2 := Real.sin_sq_add_cos_sq (x 2)
  set Ae := evalE p x A with hAe
  set dA := evalE p x (diffE 0 A) with hdAe
  set b := p .bScale with hbdef
  set s1 := Real.sin (x 1)
  set c1 := Real.cos (x 1)
  set s2 := Real.sin (x 2)
  set c2 := Real.cos (x 2)
  set V2 := Real.sqrt (Ae * Ae + b * b) with hV2def
  set V1 := Real.sqrt (Ae * Ae + (b * s1) * (b * s1)) with hV1def
  have hV2sq : V2^2 = Ae * Ae + b * b :=
    Real.sq_sqrt (le_of_lt harg)
  have hV1sq : V1^2 = Ae * Ae + (b * s1) * (b * s1) :=
    Real.sq_sqrt (add_nonneg (mul_self_nonneg _) (mul_self_nonneg _))
  have hV2pos : 0 < V2 := Real.sqrt_pos.mpr harg
  have hV2ne : V2 ≠ 0 := ne_of_gt hV2pos
  have hV1nn : 0 ≤ V1 := Real.sqrt_nonneg _
  refine ⟨?_, ?_, ?_⟩
  · rw [Fin.sum_univ_three, tpState_cartC0, tpState_cartC1, tpState_cartC2,
      tpState_sfC0, pderiv_eq p x 0 hD0, pderiv_eq p x 0 hD1, pderiv_eq p x 0 hD2,
      sphD00, sphD01, tpD02 p x A hbne]
    have hLHS : evalE p x (Expr.div (.mul (diffE 0 A) (var1E A)) (var2E A))
        = dA * V1 / V2 := by
      simp only [evalE, evalE_var1E, evalE_var2E, ← hAe, ← hdAe, ← hbdef,
        ← hV1def, ← hV2def]
    rw [hLHS]
    have key : (dA*s1*c2)^2 + (dA*s1*s2)^2 + (Ae*dA/V2*c1)^2 = (dA*V1/V2)^2 := by
      have e1 : (Ae*dA/V2*c1)^2 = (Ae*dA*c1)^2/V2^2 := by ring
      have e2 : (dA*V1/V2)^2 = dA^2*V1^2/V2^2 := by ring
      rw [e1, e2, hV1sq, hV2sq]
      have hDne : Ae * Ae + b * b ≠ 0 := ne_of_gt harg
      field_simp [hDne]
      linear_combination (dA^2*s1^2*(Ae*Ae+b*b))*hp2 + (dA^2*(Ae*Ae))*hp1
    rw [key, Real.sqrt_sq (div_nonneg (mul_nonneg hdA hV1nn) (le_of_lt hV2pos))]
  · rw [Fin.sum_univ_three, tpState_cartC0, tpState_cartC1, tpState_cartC2,
      tpState_sfC1, pderiv_eq p x 1 hD0, pderiv_eq p x 1 hD1, pderiv_eq p x 1 hD2,
      sphD10 p x A h1A, sphD11 p x A h1A, tpD12 p x A h1A]
    have hLHS : evalE p x (var1E A) = V1 := by
      rw [evalE_var1E, ← hAe, ← hbdef]
    rw [hLHS]
    have key : (Ae*c1*c2)^2 + (Ae*c1*s2)^2 + (-(V2*s1))^2 = V1^2 := by
      rw [hV1sq]
      linear_combination (Ae*Ae*c1^2)*hp2 + (Ae*Ae)*hp1 + s1^2*hV2sq
    rw [key, Real.sqrt_sq hV1nn]
  · rw [Fin.sum_univ_three, tpState_cartC0, tpState_cartC1, tpState_cartC2,
      tpState_sfC2, pderiv_eq p x 2 hD0, pderiv_eq p x 2 hD1, pderiv_eq p x 2 hD2,
      sphD20 p x A h2A, sphD21 p x A h2A, tpD22 p x A h2A]
    have hLHS : evalE p x (Expr.mul A (.sin (.var 1))) = Ae * s1 := by
      simp only [evalE, ← hAe]
    rw [hLHS]
    have key : (-(Ae*s1*s2))^2 + (Ae*s1*c2)^2 + (0:ℝ)^2 = (Ae*s1)^2 := by
      linear_combination (Ae^2*s1^2)*hp2
    rw [key, Real.sqrt_sq (mul_nonneg hA hsin)]

/- Projection and norm lemmas for the Cartesian branch. -/

theorem cartState_cartC0 (st : RefState) :
    (cartState st).xxCart (Fin.castSucc 0) = .var 0 := rfl
theorem cartState_cartC1 (st : RefState) :
    (cartState st).xxCart (Fin.castSucc 1) = .var 1 := rfl
theorem cartState_cartC2 (st : RefState) :
    (cartState st).xxCart (Fin.castSucc 2) = .var 2 := rfl
theorem cartState_sfC0 (st : RefState) :
    (cartState st).scalefactor_orthog (Fin.castSucc 0) = .num 1 := rfl
theorem cartState_sfC1 (st : RefState) :
    (cartState st).scalefactor_orthog (Fin.castSucc 1) = .num 1 := rfl
theorem cartState_sfC2 (st : RefState) :
    (cartState st).scalefactor_orthog (Fin.castSucc 2) = .num 1 := rfl

theorem evalE_diffE_var (p : PName → ℝ) (x : Fin 3 → ℝ) (i j : Fin 3) :
    evalE p x (diffE i (.var j)) = if j = i then 1 else 0 := by
  by_cases hj : j = i <;> simp [diffE, evalE, hj]

theorem C1_cart_branch (p : PName → ℝ) (x : Fin 3 → ℝ) (st₀ : RefState) :
    (evalE p x ((cartState st₀).scalefactor_orthog (Fin.castSucc 0))
        = Real.sqrt (∑ j : Fin 3,
            (pderiv p x 0 ((cartState st₀).xxCart j.castSucc))^2))
    ∧ (evalE p x ((cartState st₀).scalefactor_orthog (Fin.castSucc 1))
        = Real.sqrt (∑ j : Fin 3,
            (pderiv p x 1 ((cartState st₀).xxCart j.castSucc))^2))
    ∧ (evalE p x ((cartState st₀).scalefactor_orthog (Fin.castSucc 2))
        = Real.sqrt (∑ j : Fin 3,
            (pderiv p x 2 ((cartState st₀).xxCart j.castSucc))^2)) := by
  have hDv0 : Dok p x (Expr.var 0) := trivial
  have hDv1 : Dok p x (Expr.var 1) := trivial
  have hDv2 : Dok p x (Expr.var 2) := trivial
  refine ⟨?_, ?_, ?_⟩ <;>
  · rw [Fin.sum_univ_three]
    rw [cartState_cartC0, cartState_cartC1, cartState_cartC2]
    first
      | rw [cartState_sfC0] | rw [cartState_sfC1] | rw [cartState_sfC2]
    rw [pderiv_eq p x _ hDv0, pderiv_eq p x _ hDv1, pderiv_eq p x _ hDv2]
    simp [evalE, evalE_diffE_var, Real.sqrt_one]

/- Value, derivative-value and positivity lemmas for the sinh-based
   coordinate laws. -/

theorem expDen_pos (w : ℝ) (hw : 0 < w) :
    0 < Real.exp (1 / w) - Real.exp (-1 / w) := by
  rw [sub_pos, Real.exp_lt_exp, neg_div]
  have h : 0 < 1 / w := by positivity
  linarith

theorem evalE_diffE_sinhFrac (p : PName → ℝ) (x : Fin 3 → ℝ) (k : Fin 3) (w : PName)
    (hw : p w ≠ 0) :
    evalE p x (diffE k (sinhFrac (.var k) w))
      = (Real.exp (x k / p w) + Real.exp (-(x k) / p w))
        / (p w * (Real.exp (1 / p w) - Real.exp (-1 / p w))) := by
  have hD := expDen_ne (p w) hw
  have hDok : Dok p x (sinhFrac (.var k) w) := Dok_sinhFrac p x _ w trivial hw
  have h1 := diffE_correct p x k _ hDok
  have hfun : (fun t => evalE p (Function.update x k t) (sinhFrac (.var k) w))
      = fun t => (Real.exp (t / p w) - Real.exp (-t / p w))
          / (Real.exp (1 / p w) - Real.exp (-1 / p w)) := by
    funext t
    rw [evalE_sinhFrac]
    norm_num [evalE, Function.update_same]
  rw [hfun] at h1
  have h2 : HasDerivAt (fun t : ℝ => (Real.exp (t / p w) - Real.exp (-t / p w))
      / (Real.exp (1 / p w) - Real.exp (-1 / p w)))
      ((Real.exp (x k / p w) * (1 / p w) - Real.exp (-(x k) / p w) * (-1 / p w))
        / (Real.exp (1 / p w) - Real.exp (-1 / p w))) (x k) := by
    apply HasDerivAt.div_const
    have ha : HasDerivAt (fun t : ℝ => Real.exp (t / p w))
        (Real.exp (x k / p w) * (1 / p w)) (x k) := by
      have := ((hasDerivAt_id (x k)).div_const (p w)).exp
      simpa using this
    have hb : HasDerivAt (fun t : ℝ => Real.exp (-t / p w))
        (Real.exp (-(x k) / p w) * (-1 / p w)) (x k) := by
      have hneg : HasDerivAt (fun t : ℝ => -t / p w) (-1 / p w) (x k) := by
        simpa using ((hasDerivAt_id (x k)).neg.div_const (p w))
      simpa using hneg.exp
    exact ha.sub hb
  have := h1.unique h2
  rw [this]
  field_simp

theorem sinhFrac_eval_nonneg (p : PName → ℝ) (x : Fin 3 → ℝ) (k : Fin 3) (w : PName)
    (hw : 0 < p w) (hk : 0 ≤ x k) :
    0 ≤ evalE p x (sinhFrac (.var k) w) := by
  rw [evalE_sinhFrac]
  apply div_nonneg
  · rw [sub_nonneg, Real.exp_le_exp]
    show -(x k) / p w ≤ x k / p w
    rw [neg_div]
    have h : 0 ≤ x k / p w := by positivity
    linarith
  · exact le_of_lt (expDen_pos _ hw)

theorem sinhFrac_eval_pos (p : PName → ℝ) (x : Fin 3 → ℝ) (k : Fin 3) (w : PName)
    (hw : 0 < p w) (hk : 0 < x k) :
    0 < evalE p x (sinhFrac (.var k) w) := by
  rw [evalE_sinhFrac]
  apply div_pos
  · rw [sub_pos, Real.exp_lt_exp]
    show -(x k) / p w < x k / p w
    rw [neg_div]
    have h : 0 < x k / p w := by positivity
    linarith
  · exact expDen_pos _ hw

theorem diffE_sinhFrac_pos (p : PName → ℝ) (x : Fin 3 → ℝ) (k : Fin 3) (w : PName)
    (hw : 0 < p w) :
    0 < evalE p x (diffE k (sinhFrac (.var k) w)) := by
  rw [evalE_diffE_sinhFrac p x k w (ne_of_gt hw)]
  exact div_pos (by positivity) (mul_pos hw (expDen_pos _ hw))

theorem evalE_diffE_mulPar (p : PName → ℝ) (x : Fin 3 → ℝ) (a : PName) (e : Expr)
    (i : Fin 3) :
    evalE p x (diffE i (.mul (.par a) e)) = p a * evalE p x (diffE i e) := by
  simp [diffE, evalE]

theorem evalE_mulPar (p : PName → ℝ) (x : Fin 3 → ℝ) (a : PName) (e : Expr) :
    evalE p x (.mul (.par a) e) = p a * evalE p x e := rfl

-- generic positivity for the sinh-family coordinate laws  a * sinhFrac(var k, w)
theorem sinhMul_nonneg (p : PName → ℝ) (x : Fin 3 → ℝ) (a w : PName) (k : Fin 3)
    (hA : 0 < p a) (hw : 0 < p w) (hk : 0 ≤ x k) :
    0 ≤ evalE p x (.mul (.par a) (sinhFrac (.var k) w)) := by
  rw [evalE_mulPar]
  exact mul_nonneg (le_of_lt hA) (sinhFrac_eval_nonneg p x k w hw hk)

theorem sinhMul_pos (p : PName → ℝ) (x : Fin 3 → ℝ) (a w : PName) (k : Fin 3)
    (hA : 0 < p a) (hw : 0 < p w) (hk : 0 < x k) :
    0 < evalE p x (.mul (.par a) (sinhFrac (.var k) w)) := by
  rw [evalE_mulPar]
  exact mul_pos hA (sinhFrac_eval_pos p x k w hw hk)

theorem sinhMul_diff_pos (p : PName → ℝ) (x : Fin 3 → ℝ) (a w : PName) (k : Fin 3)
    (hA : 0 < p a) (hw : 0 < p w) :
    0 < evalE p x (diffE k (.mul (.par a) (sinhFrac (.var k) w))) := by
  rw [evalE_diffE_mulPar]
  exact mul_pos hA (diffE_sinhFrac_pos p x k w hw)

theorem Dok_sinhMul (p : PName → ℝ) (x : Fin 3 → ℝ) (a w : PName) (k : Fin 3)
    (hw : p w ≠ 0) :
    Dok p x (.mul (.par a) (sinhFrac (.var k) w)) :=
  ⟨trivial, Dok_sinhFrac p x (.var k) w trivial hw⟩

-- the v2 variants  a * (c * var k + sinhFrac(var k, w))
theorem sinhMulv2_nonneg (p : PName → ℝ) (x : Fin 3 → ℝ) (a c w : PName) (k : Fin 3)
    (hA : 0 < p a) (hc : 0 < p c) (hw : 0 < p w) (hk : 0 ≤ x k) :
    0 ≤ evalE p x (.mul (.par a)
      (.add (.mul (.par c) (.var k)) (sinhFrac (.var k) w))) := by
  rw [evalE_mulPar]
  refine mul_nonneg (le_of_lt hA) (add_nonneg ?_ (sinhFrac_eval_nonneg p x k w hw hk))
  exact mul_nonneg (le_of_lt hc) hk

theorem sinhMulv2_pos (p : PName → ℝ) (x : Fin 3 → ℝ) (a c w : PName) (k : Fin 3)
    (hA : 0 < p a) (hc : 0 < p c) (hw : 0 < p w) (hk : 0 < x k) :
    0 < evalE p x (.mul (.par a)
      (.add (.mul (.par c) (.var k)) (sinhFrac (.var k) w))) := by
  rw [evalE_mulPar]
  refine mul_pos hA (add_pos (mul_pos hc hk) (sinhFrac_eval_pos p x k w hw hk))

theorem sinhMulv2_diff_pos (p : PName → ℝ) (x : Fin 3 → ℝ) (a c w : PName) (k : Fin 3)
    (hA : 0 < p a) (hc : 0 < p c) (hw : 0 < p w) :
    0 < evalE p x (diffE k (.mul (.par a)
      (.add (.mul (.par c) (.var k)) (sinhFrac (.var k) w)))) := by
  rw [evalE_diffE_mulPar]
  refine mul_pos hA ?_
  have hstep : diffE k (Expr.add (.mul (.par c) (.var k)) (sinhFrac (.var k) w))
      = .add (diffE k (.mul (.par c) (.var k))) (diffE k (sinhFrac (.var k) w)) := rfl
  rw [hstep]
  have h1 : evalE p x (.add (diffE k (.mul (.par c) (.var k)))
      (diffE k (sinhFrac (.var k) w)))
      = evalE p x (diffE k (.mul (.par c) (.var k)))
        + evalE p x (diffE k (sinhFrac (.var k) w)) := rfl
  rw [h1, evalE_diffE_mulPar]
  have h2 : evalE p x (diffE k (.var k)) = 1 := by
    simp [evalE_diffE_var]
  rw [h2]
  have h3 := diffE_sinhFrac_pos p x k w hw
  nlinarith

theorem Dok_sinhMulv2 (p : PName → ℝ) (x : Fin 3 → ℝ) (a c w : PName) (k : Fin 3)
    (hw : p w ≠ 0) :
    Dok p x (.mul (.par a)
      (.add (.mul (.par c) (.var k)) (sinhFrac (.var k) w))) :=
  ⟨trivial, ⟨⟨trivial, trivial⟩, Dok_sinhFrac p x (.var k) w trivial hw⟩⟩

theorem evalE_aaSinhE (p : PName → ℝ) (x : Fin 3 → ℝ) :
    evalE p x aaSinhE
      = (Real.exp (x 0 / p .AW) - Real.exp (-(x 0) / p .AW)) / 2 := by
  simp [aaSinhE, evalE, sub_eq_add_neg]

theorem Dok_aaSinhE (p : PName → ℝ) (x : Fin 3 → ℝ) (haw : p .AW ≠ 0) :
    Dok p x aaSinhE :=
  ⟨⟨⟨trivial, trivial, haw⟩, ⟨trivial, trivial, haw⟩⟩, trivial, by norm_num [evalE]⟩

theorem evalE_diffE_aaSinhE (p : PName → ℝ) (x : Fin 3 → ℝ) (haw : p .AW ≠ 0) :
    evalE p x (diffE 0 aaSinhE)
      = (Real.exp (x 0 / p .AW) + Real.exp (-(x 0) / p .AW)) / (2 * p .AW) := by
  have h1 := diffE_correct p x 0 _ (Dok_aaSinhE p x haw)
  have hfun : (fun t => evalE p (Function.update x 0 t) aaSinhE)
      = fun t => (Real.exp (t / p .AW) - Real.exp (-t / p .AW)) / 2 := by
    funext t
    rw [evalE_aaSinhE]
    norm_num [Function.update_same]
  rw [hfun] at h1
  have h2 : HasDerivAt (fun t : ℝ => (Real.exp (t / p .AW) - Real.exp (-t / p .AW)) / 2)
      ((Real.exp (x 0 / p .AW) * (1 / p .AW)
        - Real.exp (-(x 0) / p .AW) * (-1 / p .AW)) / 2) (x 0) := by
    apply HasDerivAt.div_const
    have ha : HasDerivAt (fun t : ℝ => Real.exp (t / p .AW))
        (Real.exp (x 0 / p .AW) * (1 / p .AW)) (x 0) := by
      simpa using ((hasDerivAt_id (x 0)).div_const (p .AW)).exp
    have hb : HasDerivAt (fun t : ℝ => Real.exp (-t / p .AW))
        (Real.exp (-(x 0) / p .AW) * (-1 / p .AW)) (x 0) := by
      have hneg : HasDerivAt (fun t : ℝ => -t / p .AW) (-1 / p .AW) (x 0) := by
        simpa using ((hasDerivAt_id (x 0)).neg.div_const (p .AW))
      simpa using hneg.exp
    exact ha.sub hb
  have := h1.unique h2
  rw [this, div_eq_div_iff (two_ne_zero) (mul_ne_zero (two_ne_zero) haw)]
  field_simp
  ring

theorem aaSinh_nonneg (p : PName → ℝ) (x : Fin 3 → ℝ)
    (haw : 0 < p .AW) (hx : 0 ≤ x 0) : 0 ≤ evalE p x aaSinhE := by
  rw [evalE_aaSinhE]
  apply div_nonneg _ (by norm_num)
  rw [sub_nonneg, Real.exp_le_exp, neg_div]
  have h : 0 ≤ x 0 / p .AW := by positivity
  linarith

theorem aaSinh_pos (p : PName → ℝ) (x : Fin 3 → ℝ)
    (haw : 0 < p .AW) (hx : 0 < x 0) : 0 < evalE p x aaSinhE := by
  rw [evalE_aaSinhE]
  apply div_pos _ (by norm_num)
  rw [sub_pos, Real.exp_lt_exp, neg_div]
  have h : 0 < x 0 / p .AW := by positivity
  linarith

theorem aaSinh_diff_pos (p : PName → ℝ) (x : Fin 3 → ℝ) (haw : 0 < p .AW) :
    0 < evalE p x (diffE 0 aaSinhE) := by
  rw [evalE_diffE_aaSinhE p x (ne_of_gt haw)]
  positivity

/-- C1 (amended): for every supported coordinate system and each direction i,
the declared scalefactor_orthog[i] equals the Euclidean norm of the full
3-vector partial derivative of the Cartesian map with respect to xx_i,
under the branch positivity assumptions xx0 > 0 and xx1 > 0 strengthened by
positivity of all free parameters and sin(xx1) >= 0 (xx1 within its domain
bound pi); without these strengthenings the claim fails, see the
counterexample. -/

theorem C1_scalefactor_is_full_norm :
    ∀ cs st, reference_metric cs initState = .ok st →
    ∀ (p : PName → ℝ) (x : Fin 3 → ℝ),
      (∀ q : PName, 0 < p q) → 0 < x 0 → 0 < x 1 → 0 ≤ Real.sin (x 1) →
      ∀ i : Fin 3,
        evalE p x (st.scalefactor_orthog i.castSucc)
          = Real.sqrt (∑ j : Fin 3, (pderiv p x i (st.xxCart j.castSucc))^2) := by
  intro cs st h p x hp hx0 hx1 hsin
  unfold reference_metric at h
  split_ifs at h
  · -- Spherical
    injection h with h; subst h
    have hB := C1_sph_branch p x initState (.var 0) (by decide) (by decide) trivial
      (le_of_lt hx0) (by simp [evalE_diffE_var]) hsin
    intro i; fin_cases i
    · exact hB.1
    · exact hB.2.1
    · exact hB.2.2
  · -- SinhSphericalv2
    injection h with h; subst h
    have hB := C1_sph_branch p x initState rSinhv2E (by decide) (by decide)
      (Dok_sinhMulv2 p x .AMPL .const_dr .SINHW 0 (ne_of_gt (hp .SINHW)))
      (le_of_lt (sinhMulv2_pos p x .AMPL .const_dr .SINHW 0 (hp _) (hp _) (hp _) hx0))
      (le_of_lt (sinhMulv2_diff_pos p x .AMPL .const_dr .SINHW 0 (hp _) (hp _) (hp _)))
      hsin
    intro i; fin_cases i
    · exact hB.1
    · exact hB.2.1
    · exact hB.2.2
  · -- SinhSpherical
    injection h with h; subst h
    have hB := C1_sph_branch p x initState rSinhE (by decide) (by decide)
      (Dok_sinhMul p x .AMPL .SINHW 0 (ne_of_gt (hp .SINHW)))
      (le_of_lt (sinhMul_pos p x .AMPL .SINHW 0 (hp _) (hp _) hx0))
      (le_of_lt (sinhMul_diff_pos p x .AMPL .SINHW 0 (hp _) (hp _)))
      hsin
    intro i; fin_cases i
    · exact hB.1
    · exact hB.2.1
    · exact hB.2.2
  · -- Cylindrical
    injection h with h; subst h
    have hB := C1_cyl_branch p x initState (.var 0) (.var 2)
      (by decide) (by decide) (by decide) (by decide) trivial trivial
      (le_of_lt hx0) (by simp [evalE_diffE_var]) (by simp [evalE_diffE_var])
    intro i; fin_cases i
    · exact hB.1
    · exact hB.2.1
    · exact hB.2.2
  · -- SinhCylindricalv2
    injection h with h; subst h
    have hB := C1_cyl_branch p x initState rhoSinhv2E zSinhv2E
      (by decide) (by decide) (by decide) (by decide)
      (Dok_sinhMulv2 p x .AMPLRHO .const_drho .SINHWRHO 0 (ne_of_gt (hp .SINHWRHO)))
      (Dok_sinhMulv2 p x .AMPLZ .const_dz .SINHWZ 2 (ne_of_gt (hp .SINHWZ)))
      (le_of_lt (sinhMulv2_pos p x .AMPLRHO .const_drho .SINHWRHO 0 (hp _) (hp _) (hp _) hx0))
      (le_of_lt (sinhMulv2_diff_pos p x .AMPLRHO .const_drho .SINHWRHO 0 (hp _) (hp _) (hp _)))
      (le_of_lt (sinhMulv2_diff_pos p x .AMPLZ .const_dz .SINHWZ 2 (hp _) (hp _) (hp _)))
    intro i; fin_cases i
    · exact hB.1
    · exact hB.2.1
    · exact hB.2.2
  · -- SinhCylindrical
    injection h with h; subst h
    have hB := C1_cyl_branch p x initState rhoSinhE zSinhE
      (by decide) (by decide) (by decide) (by decide)
      (Dok_sinhMul p x .AMPLRHO .SINHWRHO 0 (ne_of_gt (hp .SINHWRHO)))
      (Dok_sinhMul p x .AMPLZ .SINHWZ 2 (ne_of_gt (hp .SINHWZ)))
      (le_of_lt (sinhMul_pos p x .AMPLRHO .SINHWRHO 0 (hp _) (hp _) hx0))
      (le_of_lt (sinhMul_diff_pos p x .AMPLRHO .SINHWRHO 0 (hp _) (hp _)))
      (le_of_lt (sinhMul_diff_pos p x .AMPLZ .SINHWZ 2 (hp _) (hp _)))
    intro i; fin_cases i
    · exact hB.1
    · exact hB.2.1
    · exact hB.2.2
  · -- SinhSymTP
    injection h with h; subst h
    have hB := C1_tp_branch p x initState aaSinhE (by decide) (by decide)
      (Dok_aaSinhE p x (ne_of_gt (hp .AW)))
      (le_of_lt (aaSinh_pos p x (hp .AW) hx0))
      (le_of_lt (aaSinh_diff_pos p x (hp .AW)))
      (hp .bScale) hsin
    intro i; fin_cases i
    · exact hB.1
    · exact hB.2.1
    · exact hB.2.2
  · -- SymTP
    injection h with h; subst h
    have hB := C1_tp_branch p x initState (.var 0) (by decide) (by decide) trivial
      (le_of_lt hx0) (by simp [evalE_diffE_var]) (hp .bScale) hsin
    intro i; fin_cases i
    · exact hB.1
    · exact hB.2.1
    · exact hB.2.2
  · -- Cartesian
    injection h with h; subst h
    have hB := C1_cart_branch p x initState
    intro i; fin_cases i
    · exact hB.1
    · exact hB.2.1
    · exact hB.2.2

/-- C1 counterexample: in the Spherical system at xx = (1, 1 + pi, 1) the
branch positivity assumptions of the claim hold (xx0 > 0, xx1 > 0), yet
scalefactor_orthog[2] = xx0*sin(xx1) is negative while the Euclidean norm of
the derivative vector is nonnegative, so the claim as stated is false. -/

theorem C1_counterexample :
    (0:ℝ) < (fun j : Fin 3 => if j = 1 then 1 + Real.pi else (1:ℝ)) 0
    ∧ (0:ℝ) < (fun j : Fin 3 => if j = 1 then 1 + Real.pi else (1:ℝ)) 1
    ∧ evalE (fun _ => 1) (fun j : Fin 3 => if j = 1 then 1 + Real.pi else (1:ℝ))
        ((activeState "Spherical").scalefactor_orthog (Fin.castSucc 2))
      ≠ Real.sqrt (∑ j : Fin 3, (pderiv (fun _ => 1)
          (fun j : Fin 3 => if j = 1 then 1 + Real.pi else (1:ℝ)) 2
          ((activeState "Spherical").xxCart j.castSucc))^2) := by
  have hsf : (activeState "Spherical").scalefactor_orthog (Fin.castSucc 2)
      = Expr.mul (.var 0) (.sin (.var 1)) := rfl
  refine ⟨by simp, ?_, ?_⟩
  · simp only [if_pos rfl]
    positivity
  · intro heq
    rw [hsf] at heq
    have hL : evalE (fun _ => 1)
        (fun j : Fin 3 => if j = 1 then 1 + Real.pi else (1:ℝ))
        (Expr.mul (.var 0) (.sin (.var 1))) < 0 := by
      simp only [evalE]
      rw [if_neg (show ¬(0:Fin 3) = 1 by decide), if_pos trivial, one_mul,
        Real.sin_add_pi]
      have hs := Real.sin_pos_of_pos_of_lt_pi (x := 1) one_pos
        (by linarith [Real.pi_gt_three])
      linarith
    rw [heq] at hL
    exact absurd hL (not_lt.mpr (Real.sqrt_nonneg _))

/-- Witness for the amended C1 at the Spherical system, direction 0, with
all coordinates and parameters equal to 1. -/
theorem C1_witness :
    evalE (fun _ => 1) (fun _ => 1)
        ((activeState "Spherical").scalefactor_orthog (Fin.castSucc 0))
      = Real.sqrt (∑ j : Fin 3, (pderiv (fun _ => 1) (fun _ => 1) 0
          ((activeState "Spherical").xxCart j.castSucc))^2) :=
  C1_scalefactor_is_full_norm "Spherical" (activeState "Spherical") rfl
    (fun _ => 1) (fun _ => 1) (fun _ => one_pos) one_pos one_pos
    (Real.sin_nonneg_of_nonneg_of_le_pi (by norm_num)
      (by show (1:ℝ) ≤ Real.pi; linarith [Real.pi_gt_three])) 0

/- Per-branch nonnegativity of the declared scale factors. -/

theorem C8_sph_branch (p : PName → ℝ) (x : Fin 3 → ℝ) (st₀ : RefState) (r : Expr)
    (hR : 0 ≤ evalE p x r) (hdR : 0 ≤ evalE p x (diffE 0 r))
    (hsin : 0 ≤ Real.sin (x 1)) :
    (0 ≤ evalE p x ((sphState st₀ r).scalefactor_orthog (Fin.castSucc 0)))
    ∧ (0 ≤ evalE p x ((sphState st₀ r).scalefactor_orthog (Fin.castSucc 1)))
    ∧ (0 ≤ evalE p x ((sphState st₀ r).scalefactor_orthog (Fin.castSucc 2))) := by
  refine ⟨?_, ?_, ?_⟩
  · rw [sphState_sfC0]; exact hdR
  · rw [sphState_sfC1]; exact hR
  · rw [sphState_sfC2]
    show 0 ≤ evalE p x r * Real.sin (x 1)
    exact mul_nonneg hR hsin

theorem C8_cyl_branch (p : PName → ℝ) (x : Fin 3 → ℝ) (st₀ : RefState) (rho z : Expr)
    (hRho : 0 ≤ evalE p x rho) (hdRho : 0 ≤ evalE p x (diffE 0 rho))
    (hdZ : 0 ≤ evalE p x (diffE 2 z)) :
    (0 ≤ evalE p x ((cylState st₀ rho z).scalefactor_orthog (Fin.castSucc 0)))
    ∧ (0 ≤ evalE p x ((cylState st₀ rho z).scalefactor_orthog (Fin.castSucc 1)))
    ∧ (0 ≤ evalE p x ((cylState st₀ rho z).scalefactor_orthog (Fin.castSucc 2))) := by
  refine ⟨?_, ?_, ?_⟩
  · rw [cylState_sfC0]; exact hdRho
  · rw [cylState_sfC1]; exact hRho
  · rw [cylState_sfC2]; exact hdZ

theorem C8_tp_branch (p : PName → ℝ) (x : Fin 3 → ℝ) (st₀ : RefState) (A : Expr)
    (hA : 0 ≤ evalE p x A) (hdA : 0 ≤ evalE p x (diffE 0 A))
    (hsin : 0 ≤ Real.sin (x 1)) :
    (0 ≤ evalE p x ((tpState st₀ A).scalefactor_orthog (Fin.castSucc 0)))
    ∧ (0 ≤ evalE p x ((tpState st₀ A).scalefactor_orthog (Fin.castSucc 1)))
    ∧ (0 ≤ evalE p x ((tpState st₀ A).scalefactor_orthog (Fin.castSucc 2))) := by
  refine ⟨?_, ?_, ?_⟩
  · rw [tpState_sfC0]
    show 0 ≤ evalE p x (Expr.mul (diffE 0 A) (var1E A)) / evalE p x (var2E A)
    refine div_nonneg ?_ ?_
    · show 0 ≤ evalE p x (diffE 0 A) * evalE p x (var1E A)
      rw [evalE_var1E]
      exact mul_nonneg hdA (Real.sqrt_nonneg _)
    · rw [evalE_var2E]
      exact Real.sqrt_nonneg _
  · rw [tpState_sfC1, evalE_var1E]
    exact Real.sqrt_nonneg _
  · rw [tpState_sfC2]
    show 0 ≤ evalE p x A * Real.sin (x 1)
    exact mul_nonneg hA hsin

theorem C8_cart_branch (p : PName → ℝ) (x : Fin 3 → ℝ) (st₀ : RefState) :
    (0 ≤ evalE p x ((cartState st₀).scalefactor_orthog (Fin.castSucc 0)))
    ∧ (0 ≤ evalE p x ((cartState st₀).scalefactor_orthog (Fin.castSucc 1)))
    ∧ (0 ≤ evalE p x ((cartState st₀).scalefactor_orthog (Fin.castSucc 2))) := by
  refine ⟨?_, ?_, ?_⟩ <;>
  · first | rw [cartState_sfC0] | rw [cartState_sfC1] | rw [cartState_sfC2]
    show (0:ℝ) ≤ ((1:ℤ):ℝ)
    norm_num

/-- C8: for every supported coordinate system, every direction i, every
coordinate triple inside the branch domain bounds and positive values of
all free parameters, the declared scale factor is nonnegative. -/
theorem C8_scalefactor_nonneg :
    ∀ cs st, reference_metric cs initState = .ok st →
    ∀ (p : PName → ℝ) (x : Fin 3 → ℝ),
      (∀ q : PName, 0 < p q) → InDomain p cs x →
      ∀ i : Fin 3, 0 ≤ evalE p x (st.scalefactor_orthog i.castSucc) := by
  intro cs st h p x hp hdom
  unfold reference_metric at h
  split_ifs at h with g1 g2 g3 g4 g5 g6 g7 g8 g9
  · -- Spherical
    injection h with h; subst h; subst g2
    have hx0 : (0:ℝ) ≤ x 0 := (hdom 0).1
    have hs : 0 ≤ Real.sin (x 1) :=
      Real.sin_nonneg_of_nonneg_of_le_pi (hdom 1).1 (hdom 1).2
    have hB := C8_sph_branch p x initState (.var 0) hx0 (by simp [evalE_diffE_var]) hs
    intro i; fin_cases i
    · exact hB.1
    · exact hB.2.1
    · exact hB.2.2
  · -- SinhSphericalv2
    injection h with h; subst h; subst g3
    have hx0 : (0:ℝ) ≤ x 0 := (hdom 0).1
    have hs : 0 ≤ Real.sin (x 1) :=
      Real.sin_nonneg_of_nonneg_of_le_pi (hdom 1).1 (hdom 1).2
    have hB := C8_sph_branch p x initState rSinhv2E
      (sinhMulv2_nonneg p x .AMPL .const_dr .SINHW 0 (hp _) (hp _) (hp _) hx0)
      (le_of_lt (sinhMulv2_diff_pos p x .AMPL .const_dr .SINHW 0 (hp _) (hp _) (hp _)))
      hs
    intro i; fin_cases i
    · exact hB.1
    · exact hB.2.1
    · exact hB.2.2
  · -- SinhSpherical
    injection h with h; subst h
    rcases g1 with hc|hc|hc
    · exact absurd hc g2
    · subst hc
      have hx0 : (0:ℝ) ≤ x 0 := (hdom 0).1
      have hs : 0 ≤ Real.sin (x 1) :=
        Real.sin_nonneg_of_nonneg_of_le_pi (hdom 1).1 (hdom 1).2
      have hB := C8_sph_branch p x initState rSinhE
        (sinhMul_nonneg p x .AMPL .SINHW 0 (hp _) (hp _) hx0)
        (le_of_lt (sinhMul_diff_pos p x .AMPL .SINHW 0 (hp _) (hp _)))
        hs
      intro i; fin_cases i
      · exact hB.1
      · exact hB.2.1
      · exact hB.2.2
    · exact absurd hc g3
  · -- Cylindrical
    injection h with h; subst h; subst g5
    have hx0 : (0:ℝ) ≤ x 0 := (hdom 0).1
    have hB := C8_cyl_branch p x initState (.var 0) (.var 2) hx0
      (by simp [evalE_diffE_var]) (by simp [evalE_diffE_var])
    intro i; fin_cases i
    · exact hB.1
    · exact hB.2.1
    · exact hB.2.2
  · -- SinhCylindricalv2
    injection h with h; subst h; subst g6
    have hx0 : (0:ℝ) ≤ x 0 := (hdom 0).1
    have hB := C8_cyl_branch p x initState rhoSinhv2E zSinhv2E
      (sinhMulv2_nonneg p x .AMPLRHO .const_drho .SINHWRHO 0 (hp _) (hp _) (hp _) hx0)
      (le_of_lt (sinhMulv2_diff_pos p x .AMPLRHO .const_drho .SINHWRHO 0 (hp _) (hp _) (hp _)))
      (le_of_lt (sinhMulv2_diff_pos p x .AMPLZ .const_dz .SINHWZ 2 (hp _) (hp _) (hp _)))
    intro i; fin_cases i
    · exact hB.1
    · exact hB.2.1
    · exact hB.2.2
  · -- SinhCylindrical
    injection h with h; subst h
    rcases g4 with hc|hc|hc
    · exact absurd hc g5
    · subst hc
      have hx0 : (0:ℝ) ≤ x 0 := (hdom 0).1
      have hB := C8_cyl_branch p x initState rhoSinhE zSinhE
        (sinhMul_nonneg p x .AMPLRHO .SINHWRHO 0 (hp _) (hp _) hx0)
        (le_of_lt (sinhMul_diff_pos p x .AMPLRHO .SINHWRHO 0 (hp _) (hp _)))
        (le_of_lt (sinhMul_diff_pos p x .AMPLZ .SINHWZ 2 (hp _) (hp _)))
      intro i; fin_cases i
      · exact hB.1
      · exact hB.2.1
      · exact hB.2.2
    · exact absurd hc g6
  · -- SinhSymTP
    injection h with h; subst h; subst g8
    have hx0 : (0:ℝ) ≤ x 0 := (hdom 0).1
    have hs : 0 ≤ Real.sin (x 1) :=
      Real.sin_nonneg_of_nonneg_of_le_pi (hdom 1).1 (hdom 1).2
    have hB := C8_tp_branch p x initState aaSinhE
      (aaSinh_nonneg p x (hp .AW) hx0)
      (le_of_lt (aaSinh_diff_pos p x (hp .AW))) hs
    intro i; fin_cases i
    · exact hB.1
    · exact hB.2.1
    · exact hB.2.2
  · -- SymTP
    injection h with h; subst h
    rcases g7 with hc|hc
    · subst hc
      have hx0 : (0:ℝ) ≤ x 0 := (hdom 0).1
      have hs : 0 ≤ Real.sin (x 1) :=
        Real.sin_nonneg_of_nonneg_of_le_pi (hdom 1).1 (hdom 1).2
      have hB := C8_tp_branch p x initState (.var 0) hx0
        (by simp [evalE_diffE_var]) hs
      intro i; fin_cases i
      · exact hB.1
      · exact hB.2.1
      · exact hB.2.2
    · exact absurd hc g8
  · -- Cartesian
    injection h with h; subst h
    have hB := C8_cart_branch p x initState
    intro i; fin_cases i
    · exact hB.1
    · exact hB.2.1
    · exact hB.2.2

/-- Witness for C8 at the Spherical system with all coordinates 1 and all
parameters 2. -/
theorem C8_witness :
    0 ≤ evalE (fun _ => 2) (fun _ => 1)
        ((activeState "Spherical").scalefactor_orthog (Fin.castSucc 0)) :=
  C8_scalefactor_nonneg "Spherical" (activeState "Spherical") rfl
    (fun _ => 2) (fun _ => 1) (fun _ => two_pos)
    (by
      intro i
      fin_cases i
      · exact ⟨by show (0:ℝ) ≤ 1; norm_num, by show (1:ℝ) ≤ 2; norm_num⟩
      · exact ⟨by show (0:ℝ) ≤ 1; norm_num,
          by show (1:ℝ) ≤ Real.pi; linarith [Real.pi_gt_three]⟩
      · exact ⟨by show (0:ℝ) ≤ 1; norm_num,
          by show (1:ℝ) ≤ 2 * Real.pi; linarith [Real.pi_gt_three]⟩) 0

/- Generic lemmas for the unit-vector matrix UnitVectors3D, and the
   per-branch orthonormality lemmas for claim C2. -/

theorem evalE_UV (p : PName → ℝ) (x : Fin 3 → ℝ) (st : RefState) (i j : Fin 3) :
    evalE p x (UnitVectors3D st i j)
      = evalE p x (diffE i (st.xxCart j.castSucc))
        / Real.sqrt (0
            + evalE p x (diffE i (st.xxCart 0)) * evalE p x (diffE i (st.xxCart 0))
            + evalE p x (diffE i (st.xxCart 1)) * evalE p x (diffE i (st.xxCart 1))
            + evalE p x (diffE i (st.xxCart 2)) * evalE p x (diffE i (st.xxCart 2))) := by
  simp only [UnitVectors3D, sqE, evalE, Int.cast_zero]

theorem row_norm_generic (n0 n1 n2 : ℝ) (h : 0 < n0^2 + n1^2 + n2^2) :
    (n0 / Real.sqrt (0 + n0*n0 + n1*n1 + n2*n2))^2
    + (n1 / Real.sqrt (0 + n0*n0 + n1*n1 + n2*n2))^2
    + (n2 / Real.sqrt (0 + n0*n0 + n1*n1 + n2*n2))^2 = 1 := by
  have hsum : 0 + n0*n0 + n1*n1 + n2*n2 = n0^2 + n1^2 + n2^2 := by ring
  rw [hsum]
  have hN : Real.sqrt (n0^2 + n1^2 + n2^2) ^ 2 = n0^2 + n1^2 + n2^2 :=
    Real.sq_sqrt (le_of_lt h)
  have hNne : Real.sqrt (n0^2 + n1^2 + n2^2) ≠ 0 :=
    ne_of_gt (Real.sqrt_pos.mpr h)
  field_simp

theorem dot_zero (a0 a1 a2 b0 b1 b2 N M : ℝ) (h : a0*b0 + a1*b1 + a2*b2 = 0) :
    (a0/N)*(b0/M) + (a1/N)*(b1/M) + (a2/N)*(b2/M) = 0 := by
  have he : (a0/N)*(b0/M) + (a1/N)*(b1/M) + (a2/N)*(b2/M)
      = (a0*b0 + a1*b1 + a2*b2)/(N*M) := by ring
  rw [he, h, zero_div]

theorem UV_entry (p : PName → ℝ) (x : Fin 3 → ℝ) (st : RefState) (i j : Fin 3)
    (hD0 : Dok p x (st.xxCart 0)) (hD1 : Dok p x (st.xxCart 1))
    (hD2 : Dok p x (st.xxCart 2)) (hDj : Dok p x (st.xxCart j.castSucc)) :
    evalE p x (UnitVectors3D st i j)
      = pderiv p x i (st.xxCart j.castSucc)
        / Real.sqrt (∑ k : Fin 3, (pderiv p x i (st.xxCart k.castSucc))^2) := by
  rw [evalE_UV, Fin.sum_univ_three, pderiv_eq p x i hDj]
  have e0 : pderiv p x i (st.xxCart (Fin.castSucc 0))
      = evalE p x (diffE i (st.xxCart 0)) := pderiv_eq p x i hD0
  have e1 : pderiv p x i (st.xxCart (Fin.castSucc 1))
      = evalE p x (diffE i (st.xxCart 1)) := pderiv_eq p x i hD1
  have e2 : pderiv p x i (st.xxCart (Fin.castSucc 2))
      = evalE p x (diffE i (st.xxCart 2)) := pderiv_eq p x i hD2
  rw [e0, e1, e2]
  congr 2
  ring

theorem sphState_cart0L (st : RefState) (r : Expr) :
    (sphState st r).xxCart 0 = sphCart0 r := rfl
theorem sphState_cart1L (st : RefState) (r : Expr) :
    (sphState st r).xxCart 1 = sphCart1 r := rfl
theorem sphState_cart2L (st : RefState) (r : Expr) :
    (sphState st r).xxCart 2 = sphCart2 r := rfl

theorem C2_sph_branch (p : PName → ℝ) (x : Fin 3 → ℝ) (st₀ : RefState) (r : Expr)
    (h1 : varFree 1 r = true) (h2 : varFree 2 r = true)
    (hR : 0 < evalE p x r) (hdR : 0 < evalE p x (diffE 0 r))
    (hsin : 0 < Real.sin (x 1)) :
    (∑ j : Fin 3, (evalE p x (UnitVectors3D (sphState st₀ r) 0 j))^2 = 1)
    ∧ (∑ j : Fin 3, (evalE p x (UnitVectors3D (sphState st₀ r) 1 j))^2 = 1)
    ∧ (∑ j : Fin 3, (evalE p x (UnitVectors3D (sphState st₀ r) 2 j))^2 = 1)
    ∧ (∑ j : Fin 3, evalE p x (UnitVectors3D (sphState st₀ r) 0 j)
        * evalE p x (UnitVectors3D (sphState st₀ r) 1 j) = 0)
    ∧ (∑ j : Fin 3, evalE p x (UnitVectors3D (sphState st₀ r) 0 j)
        * evalE p x (UnitVectors3D (sphState st₀ r) 2 j) = 0)
    ∧ (∑ j : Fin 3, evalE p x (UnitVectors3D (sphState st₀ r) 1 j)
        * evalE p x (UnitVectors3D (sphState st₀ r) 0 j) = 0)
    ∧ (∑ j : Fin 3, evalE p x (UnitVectors3D (sphState st₀ r) 1 j)
        * evalE p x (UnitVectors3D (sphState st₀ r) 2 j) = 0)
    ∧ (∑ j : Fin 3, evalE p x (UnitVectors3D (sphState st₀ r) 2 j)
        * evalE p x (UnitVectors3D (sphState st₀ r) 0 j) = 0)
    ∧ (∑ j : Fin 3, evalE p x (UnitVectors3D (sphState st₀ r) 2 j)
        * evalE p x (UnitVectors3D (sphState st₀ r) 1 j) = 0) := by
  have hp1 := Real.sin_sq_add_cos_sq (x 1)
  have hp2 := Real.sin_sq_add_cos_sq (x 2)
  set R := evalE p x r with hRdef
  set dR := evalE p x (diffE 0 r) with hdRdef
  set s1 := Real.sin (x 1)
  set c1 := Real.cos (x 1)
  set s2 := Real.sin (x 2)
  set c2 := Real.cos (x 2)
  refine ⟨?_, ?_, ?_, ?_, ?_, ?_, ?_, ?_, ?_⟩ <;>
    rw [Fin.sum_univ_three] <;>
    simp only [evalE_UV, sphState_cartC0, sphState_cartC1, sphState_cartC2,
      sphState_cart0L, sphState_cart1L, sphState_cart2L,
      sphD00 p x r, sphD01 p x r, sphD02 p x r,
      sphD10 p x r h1, sphD11 p x r h1, sphD12 p x r h1,
      sphD20 p x r h2, sphD21 p x r h2, sphD22 p x r h2, ← hRdef, ← hdRdef]
  · exact row_norm_generic _ _ _ (by
      rw [show (dR*s1*c2)^2 + (dR*s1*s2)^2 + (dR*c1)^2 = dR^2 from by
        linear_combination dR^2*hp1 + dR^2*s1^2*hp2]
      exact pow_pos hdR 2)
  · exact row_norm_generic _ _ _ (by
      rw [show (R*c1*c2)^2 + (R*c1*s2)^2 + (-(R*s1))^2 = R^2 from by
        linear_combination R^2*hp1 + R^2*c1^2*hp2]
      exact pow_pos hR 2)
  · exact row_norm_generic _ _ _ (by
      rw [show (-(R*s1*s2))^2 + (R*s1*c2)^2 + (0:ℝ)^2 = (R*s1)^2 from by
        linear_combination R^2*s1^2*hp2]
      exact pow_pos (mul_pos hR hsin) 2)
  · exact dot_zero _ _ _ _ _ _ _ _ (by linear_combination (dR*R*s1*c1)*hp2)
  · exact dot_zero _ _ _ _ _ _ _ _ (by ring)
  · exact dot_zero _ _ _ _ _ _ _ _ (by linear_combination (dR*R*s1*c1)*hp2)
  · exact dot_zero _ _ _ _ _ _ _ _ (by ring)
  · exact dot_zero _ _ _ _ _ _ _ _ (by ring)
  · exact dot_zero _ _ _ _ _ _ _ _ (by ring)

theorem cylState_cart0L (st : RefState) (rho z : Expr) :
    (cylState st rho z).xxCart 0 = cylCart0 rho := rfl
theorem cylState_cart1L (st : RefState) (rho z : Expr) :
    (cylState st rho z).xxCart 1 = cylCart1 rho := rfl
theorem cylState_cart2L (st : RefState) (rho z : Expr) :
    (cylState st rho z).xxCart 2 = z := rfl

theorem C2_cyl_branch (p : PName → ℝ) (x : Fin 3 → ℝ) (st₀ : RefState) (rho z : Expr)
    (h1r : varFree 1 rho = true) (h2r : varFree 2 rho = true)
    (h0z : varFree 0 z = true) (h1z : varFree 1 z = true)
    (hRho : 0 < evalE p x rho) (hdRho : 0 < evalE p x (diffE 0 rho))
    (hdZ : 0 < evalE p x (diffE 2 z)) :
    (∑ j : Fin 3, (evalE p x (UnitVectors3D (cylState st₀ rho z) 0 j))^2 = 1)
    ∧ (∑ j : Fin 3, (evalE p x (UnitVectors3D (cylState st₀ rho z) 1 j))^2 = 1)
    ∧ (∑ j : Fin 3, (evalE p x (UnitVectors3D (cylState st₀ rho z) 2 j))^2 = 1)
    ∧ (∑ j : Fin 3, evalE p x (UnitVectors3D (cylState st₀ rho z) 0 j)
        * evalE p x (UnitVectors3D (cylState st₀ rho z) 1 j) = 0)
    ∧ (∑ j : Fin 3, evalE p x (UnitVectors3D (cylState st₀ rho z) 0 j)
        * evalE p x (UnitVectors3D (cylState st₀ rho z) 2 j) = 0)
    ∧ (∑ j : Fin 3, evalE p x (UnitVectors3D (cylState st₀ rho z) 1 j)
        * evalE p x (UnitVectors3D (cylState st₀ rho z) 0 j) = 0)
    ∧ (∑ j : Fin 3, evalE p x (UnitVectors3D (cylState st₀ rho z) 1 j)
        * evalE p x (UnitVectors3D (cylState st₀ rho z) 2 j) = 0)
    ∧ (∑ j : Fin 3, evalE p x (UnitVectors3D (cylState st₀ rho z) 2 j)
        * evalE p x (UnitVectors3D (cylState st₀ rho z) 0 j) = 0)
    ∧ (∑ j : Fin 3, evalE p x (UnitVectors3D (cylState st₀ rho z) 2 j)
        * evalE p x (UnitVectors3D (cylState st₀ rho z) 1 j) = 0) := by
  have hp1 := Real.sin_sq_add_cos_sq (x 1)
  have hz0 : evalE p x (diffE 0 z) = 0 := evalE_diffE_varFree p x 0 z h0z
  have hz1 : evalE p x (diffE 1 z) = 0 := evalE_diffE_varFree p x 1 z h1z
  have hc20 : evalE p x (diffE 2 (cylCart0 rho)) = 0 :=
    evalE_diffE_varFree p x 2 _ (by simp [cylCart0, varFree, h2r])
  have hc21 : evalE p x (diffE 2 (cylCart1 rho)) = 0 :=
    evalE_diffE_varFree p x 2 _ (by simp [cylCart1, varFree, h2r])
  set R := evalE p x rho with hRdef
  set dR := evalE p x (diffE 0 rho) with hdRdef
  set dZ := evalE p x (diffE 2 z) with hdZdef
  set s1 := Real.sin (x 1)
  set c1 := Real.cos (x 1)
  refine ⟨?_, ?_, ?_, ?_, ?_, ?_, ?_, ?_, ?_⟩ <;>
    rw [Fin.sum_univ_three] <;>
    simp only [evalE_UV, cylState_cartC0, cylState_cartC1, cylState_cartC2,
      cylState_cart0L, cylState_cart1L, cylState_cart2L,
      cylD00 p x rho, cylD01 p x rho, cylD10 p x rho h1r, cylD11 p x rho h1r,
      hz0, hz1, hc20, hc21, ← hRdef, ← hdRdef, ← hdZdef]
  · exact row_norm_generic _ _ _ (by
      rw [show (dR*c1)^2 + (dR*s1)^2 + (0:ℝ)^2 = dR^2 from by
        linear_combination dR^2*hp1]
      exact pow_pos hdRho 2)
  · exact row_norm_generic _ _ _ (by
      rw [show (-(R*s1))^2 + (R*c1)^2 + (0:ℝ)^2 = R^2 from by
        linear_combination R^2*hp1]
      exact pow_pos hRho 2)
  · exact row_norm_generic _ _ _ (by
      rw [show (0:ℝ)^2 + (0:ℝ)^2 + dZ^2 = dZ^2 from by ring]
      exact pow_pos hdZ 2)
  · exact dot_zero _ _ _ _ _ _ _ _ (by ring)
  · exact dot_zero _ _ _ _ _ _ _ _ (by ring)
  · exact dot_zero _ _ _ _ _ _ _ _ (by ring)
  · exact dot_zero _ _ _ _ _ _ _ _ (by ring)
  · exact dot_zero _ _ _ _ _ _ _ _ (by ring)
  · exact dot_zero _ _ _ _ _ _ _ _ (by ring)

theorem tpState_cart0L (st : RefState) (A : Expr) :
    (tpState st A).xxCart 0 = sphCart0 A := rfl
theorem tpState_cart1L (st : RefState) (A : Expr) :
    (tpState st A).xxCart 1 = sphCart1 A := rfl
theorem tpState_cart2L (st : RefState) (A : Expr) :
    (tpState st A).xxCart 2 = tpCart2 A := rfl

theorem C2_tp_branch (p : PName → ℝ) (x : Fin 3 → ℝ) (st₀ : RefState) (A : Expr)
    (h1A : varFree 1 A = true) (h2A : varFree 2 A = true)
    (hA : 0 < evalE p x A) (hdA : 0 < evalE p x (diffE 0 A))
    (hb : 0 < p .bScale) (hsin : 0 < Real.sin (x 1)) :
    (∑ j : Fin 3, (evalE p x (UnitVectors3D (tpState st₀ A) 0 j))^2 = 1)
    ∧ (∑ j : Fin 3, (evalE p x (UnitVectors3D (tpState st₀ A) 1 j))^2 = 1)
    ∧ (∑ j : Fin 3, (evalE p x (UnitVectors3D (tpState st₀ A) 2 j))^2 = 1)
    ∧ (∑ j : Fin 3, evalE p x (UnitVectors3D (tpState st₀ A) 0 j)
        * evalE p x (UnitVectors3D (tpState st₀ A) 1 j) = 0)
    ∧ (∑ j : Fin 3, evalE p x (UnitVectors3D (tpState st₀ A) 0 j)
        * evalE p x (UnitVectors3D (tpState st₀ A) 2 j) = 0)
    ∧ (∑ j : Fin 3, evalE p x (UnitVectors3D (tpState st₀ A) 1 j)
        * evalE p x (UnitVectors3D (tpState st₀ A) 0 j) = 0)
    ∧ (∑ j : Fin 3, evalE p x (UnitVectors3D (tpState st₀ A) 1 j)
        * evalE p x (UnitVectors3D (tpState st₀ A) 2 j) = 0)
    ∧ (∑ j : Fin 3, evalE p x (UnitVectors3D (tpState st₀ A) 2 j)
        * evalE p x (UnitVectors3D (tpState st₀ A) 0 j) = 0)
    ∧ (∑ j : Fin 3, evalE p x (UnitVectors3D (tpState st₀ A) 2 j)
        * evalE p x (UnitVectors3D (tpState st₀ A) 1 j) = 0) := by
  have hbne : p .bScale ≠ 0 := ne_of_gt hb
  have harg : (0:ℝ) < evalE p x A * evalE p x A + p .bScale * p .bScale :=
    add_pos_of_nonneg_of_pos (mul_self_nonneg _) (mul_self_pos.mpr hbne)
  have hp1 := Real.sin_sq_add_cos_sq (x 1)
  have hp2 := Real.sin_sq_add_cos_sq (x 2)
  set Ae := evalE p x A with hAe
  set dA := evalE p x (diffE 0 A) with hdAe
  set b := p .bScale with hbdef
  set s1 := Real.sin (x 1)
  set c1 := Real.cos (x 1)
  set s2 := Real.sin (x 2)
  set c2 := Real.cos (x 2)
  set V2 := Real.sqrt (Ae * Ae + b * b) with hV2def
  set V1 := Real.sqrt (Ae * Ae + (b * s1) * (b * s1)) with hV1def
  have hV2sq : V2^2 = Ae * Ae + b * b := Real.sq_sqrt (le_of_lt harg)
  have hV1sq : V1^2 = Ae * Ae + (b * s1) * (b * s1) :=
    Real.sq_sqrt (add_nonneg (mul_self_nonneg _) (mul_self_nonneg _))
  have hV2pos : 0 < V2 := Real.sqrt_pos.mpr harg
  have hV2ne : V2 ≠ 0 := ne_of_gt hV2pos
  have hV1pos : 0 < V1 := Real.sqrt_pos.mpr
    (add_pos_of_pos_of_nonneg (mul_self_pos.mpr (ne_of_gt hA)) (mul_self_nonneg _))
  have e3 : Ae * dA / V2 * c1 * -(V2 * s1) = -(Ae * dA * c1 * s1) := by
    field_simp
    ring
  refine ⟨?_, ?_, ?_, ?_, ?_, ?_, ?_, ?_, ?_⟩ <;>
    rw [Fin.sum_univ_three] <;>
    simp only [evalE_UV, tpState_cartC0, tpState_cartC1, tpState_cartC2,
      tpState_cart0L, tpState_cart1L, tpState_cart2L,
      sphD00 p x A, sphD01 p x A, tpD02 p x A hbne,
      sphD10 p x A h1A, sphD11 p x A h1A, tpD12 p x A h1A,
      sphD20 p x A h2A, sphD21 p x A h2A, tpD22 p x A h2A,
      ← hAe, ← hdAe, ← hbdef, ← hV2def]
  · exact row_norm_generic _ _ _ (by
      rw [show (dA*s1*c2)^2 + (dA*s1*s2)^2 + (Ae*dA/V2*c1)^2 = (dA*V1/V2)^2 from by
        have e1 : (Ae*dA/V2*c1)^2 = (Ae*dA*c1)^2/V2^2 := by ring
        have e2 : (dA*V1/V2)^2 = dA^2*V1^2/V2^2 := by ring
        rw [e1, e2, hV1sq, hV2sq]
        field_simp [ne_of_gt harg]
        linear_combination (dA^2*s1^2*(Ae*Ae+b*b))*hp2 + (dA^2*(Ae*Ae))*hp1]
      exact pow_pos (div_pos (mul_pos hdA hV1pos) hV2pos) 2)
  · exact row_norm_generic _ _ _ (by
      rw [show (Ae*c1*c2)^2 + (Ae*c1*s2)^2 + (-(V2*s1))^2 = V1^2 from by
        rw [hV1sq]
        linear_combination (Ae*Ae*c1^2)*hp2 + (Ae*Ae)*hp1 + s1^2*hV2sq]
      exact pow_pos hV1pos 2)
  · exact row_norm_generic _ _ _ (by
      rw [show (-(Ae*s1*s2))^2 + (Ae*s1*c2)^2 + (0:ℝ)^2 = (Ae*s1)^2 from by
        linear_combination (Ae^2*s1^2)*hp2]
      exact pow_pos (mul_pos hA hsin) 2)
  · exact dot_zero _ _ _ _ _ _ _ _ (by
      rw [show dA*s1*c2*(Ae*c1*c2) + dA*s1*s2*(Ae*c1*s2) + Ae*dA/V2*c1*(-(V2*s1))
          = dA*s1*c2*(Ae*c1*c2) + dA*s1*s2*(Ae*c1*s2) + -(Ae*dA*c1*s1) from by
        rw [e3]]
      linear_combination (Ae*dA*s1*c1)*hp2)
  · exact dot_zero _ _ _ _ _ _ _ _ (by ring)
  · exact dot_zero _ _ _ _ _ _ _ _ (by
      rw [show Ae*c1*c2*(dA*s1*c2) + Ae*c1*s2*(dA*s1*s2) + -(V2*s1)*(Ae*dA/V2*c1)
          = Ae*c1*c2*(dA*s1*c2) + Ae*c1*s2*(dA*s1*s2) + -(Ae*dA*c1*s1) from by
        rw [show -(V2*s1)*(Ae*dA/V2*c1) = Ae*dA/V2*c1*(-(V2*s1)) from by ring, e3]]
      linear_combination (Ae*dA*s1*c1)*hp2)
  · exact dot_zero _ _ _ _ _ _ _ _ (by ring)
  · exact dot_zero _ _ _ _ _ _ _ _ (by ring)
  · exact dot_zero _ _ _ _ _ _ _ _ (by ring)

theorem cartState_cart0L (st : RefState) :
    (cartState st).xxCart 0 = .var 0 := rfl
theorem cartState_cart1L (st : RefState) :
    (cartState st).xxCart 1 = .var 1 := rfl
theorem cartState_cart2L (st : RefState) :
    (cartState st).xxCart 2 = .var 2 := rfl

theorem C2_cart_branch (p : PName → ℝ) (x : Fin 3 → ℝ) (st₀ : RefState) :
    (∑ j : Fin 3, (evalE p x (UnitVectors3D (cartState st₀) 0 j))^2 = 1)
    ∧ (∑ j : Fin 3, (evalE p x (UnitVectors3D (cartState st₀) 1 j))^2 = 1)
    ∧ (∑ j : Fin 3, (evalE p x (UnitVectors3D (cartState st₀) 2 j))^2 = 1)
    ∧ (∑ j : Fin 3, evalE p x (UnitVectors3D (cartState st₀) 0 j)
        * evalE p x (UnitVectors3D (cartState st₀) 1 j) = 0)
    ∧ (∑ j : Fin 3, evalE p x (UnitVectors3D (cartState st₀) 0 j)
        * evalE p x (UnitVectors3D (cartState st₀) 2 j) = 0)
    ∧ (∑ j : Fin 3, evalE p x (UnitVectors3D (cartState st₀) 1 j)
        * evalE p x (UnitVectors3D (cartState st₀) 0 j) = 0)
    ∧ (∑ j : Fin 3, evalE p x (UnitVectors3D (cartState st₀) 1 j)
        * evalE p x (UnitVectors3D (cartState st₀) 2 j) = 0)
    ∧ (∑ j : Fin 3, evalE p x (UnitVectors3D (cartState st₀) 2 j)
        * evalE p x (UnitVectors3D (cartState st₀) 0 j) = 0)
    ∧ (∑ j : Fin 3, evalE p x (UnitVectors3D (cartState st₀) 2 j)
        * evalE p x (UnitVectors3D (cartState st₀) 1 j) = 0) := by
  refine ⟨?_, ?_, ?_, ?_, ?_, ?_, ?_, ?_, ?_⟩ <;>
    rw [Fin.sum_univ_three] <;>
    simp [evalE_UV, cartState_cartC0, cartState_cartC1, cartState_cartC2,
      cartState_cart0L, cartState_cart1L, cartState_cart2L, evalE_diffE_var]

/-- C2: for every supported coordinate system, UnitVectors3D returns a 3×3
matrix whose (i,j) entry is the derivative of the j-th Cartesian component
with respect to the i-th logical coordinate divided by the Euclidean norm of
the i-th row-derivative vector; each row has squared Euclidean norm 1 and any
two distinct rows have dot product 0, away from coordinate singularities
(positive parameters, xx0 > 0, sin(xx1) > 0). -/
theorem C2_unit_vectors_orthonormal :
    ∀ cs st, reference_metric cs initState = .ok st →
    ∀ (p : PName → ℝ) (x : Fin 3 → ℝ),
      (∀ q : PName, 0 < p q) → 0 < x 0 → 0 < Real.sin (x 1) →
      (∀ i j : Fin 3,
          evalE p x (UnitVectors3D st i j)
            = pderiv p x i (st.xxCart j.castSucc)
              / Real.sqrt (∑ k : Fin 3, (pderiv p x i (st.xxCart k.castSucc))^2))
      ∧ (∀ i : Fin 3, ∑ j : Fin 3, (evalE p x (UnitVectors3D st i j))^2 = 1)
      ∧ (∀ i i' : Fin 3, i ≠ i' →
          ∑ j : Fin 3, evalE p x (UnitVectors3D st i j)
            * evalE p x (UnitVectors3D st i' j) = 0) := by
  intro cs st h p x hp hx0 hsin
  unfold reference_metric at h
  split_ifs at h
  · -- Spherical
    injection h with h; subst h
    have hDr : Dok p x (Expr.var 0) := trivial
    have hD0 : Dok p x ((sphState initState (.var 0)).xxCart 0) :=
      ⟨⟨hDr, trivial⟩, trivial⟩
    have hD1 : Dok p x ((sphState initState (.var 0)).xxCart 1) :=
      ⟨⟨hDr, trivial⟩, trivial⟩
    have hD2 : Dok p x ((sphState initState (.var 0)).xxCart 2) := ⟨hDr, trivial⟩
    have hB := C2_sph_branch p x initState (.var 0) (by decide) (by decide)
      hx0 (by simp [evalE_diffE_var]) hsin
    exact ⟨fun i j => UV_entry p x _ i j hD0 hD1 hD2
        (by fin_cases j; exacts [hD0, hD1, hD2]),
      fun i => by fin_cases i; exacts [hB.1, hB.2.1, hB.2.2.1],
      fun i i' hne => by
        fin_cases i <;> fin_cases i'
        exacts [absurd rfl hne, hB.2.2.2.1, hB.2.2.2.2.1,
          hB.2.2.2.2.2.1, absurd rfl hne, hB.2.2.2.2.2.2.1,
          hB.2.2.2.2.2.2.2.1, hB.2.2.2.2.2.2.2.2, absurd rfl hne]⟩
  · -- SinhSphericalv2
    injection h with h; subst h
    have hDr : Dok p x rSinhv2E :=
      Dok_sinhMulv2 p x .AMPL .const_dr .SINHW 0 (ne_of_gt (hp .SINHW))
    have hD0 : Dok p x ((sphState initState rSinhv2E).xxCart 0) :=
      ⟨⟨hDr, trivial⟩, trivial⟩
    have hD1 : Dok p x ((sphState initState rSinhv2E).xxCart 1) :=
      ⟨⟨hDr, trivial⟩, trivial⟩
    have hD2 : Dok p x ((sphState initState rSinhv2E).xxCart 2) := ⟨hDr, trivial⟩
    have hB := C2_sph_branch p x initState rSinhv2E (by decide) (by decide)
      (sinhMulv2_pos p x .AMPL .const_dr .SINHW 0 (hp _) (hp _) (hp _) hx0)
      (sinhMulv2_diff_pos p x .AMPL .const_dr .SINHW 0 (hp _) (hp _) (hp _))
      hsin
    exact ⟨fun i j => UV_entry p x _ i j hD0 hD1 hD2
        (by fin_cases j; exacts [hD0, hD1, hD2]),
      fun i => by fin_cases i; exacts [hB.1, hB.2.1, hB.2.2.1],
      fun i i' hne => by
        fin_cases i <;> fin_cases i'
        exacts [absurd rfl hne, hB.2.2.2.1, hB.2.2.2.2.1,
          hB.2.2.2.2.2.1, absurd rfl hne, hB.2.2.2.2.2.2.1,
          hB.2.2.2.2.2.2.2.1, hB.2.2.2.2.2.2.2.2, absurd rfl hne]⟩
  · -- SinhSpherical
    injection h with h; subst h
    have hDr : Dok p x rSinhE :=
      Dok_sinhMul p x .AMPL .SINHW 0 (ne_of_gt (hp .SINHW))
    have hD0 : Dok p x ((sphState initState rSinhE).xxCart 0) :=
      ⟨⟨hDr, trivial⟩, trivial⟩
    have hD1 : Dok p x ((sphState initState rSinhE).xxCart 1) :=
      ⟨⟨hDr, trivial⟩, trivial⟩
    have hD2 : Dok p x ((sphState initState rSinhE).xxCart 2) := ⟨hDr, trivial⟩
    have hB := C2_sph_branch p x initState rSinhE (by decide) (by decide)
      (sinhMul_pos p x .AMPL .SINHW 0 (hp _) (hp _) hx0)
      (sinhMul_diff_pos p x .AMPL .SINHW 0 (hp _) (hp _))
      hsin
    exact ⟨fun i j => UV_entry p x _ i j hD0 hD1 hD2
        (by fin_cases j; exacts [hD0, hD1, hD2]),
      fun i => by fin_cases i; exacts [hB.1, hB.2.1, hB.2.2.1],
      fun i i' hne => by
        fin_cases i <;> fin_cases i'
        exacts [absurd rfl hne, hB.2.2.2.1, hB.2.2.2.2.1,
          hB.2.2.2.2.2.1, absurd rfl hne, hB.2.2.2.2.2.2.1,
          hB.2.2.2.2.2.2.2.1, hB.2.2.2.2.2.2.2.2, absurd rfl hne]⟩
  · -- Cylindrical
    injection h with h; subst h
    have hDr : Dok p x (Expr.var 0) := trivial
    have hDz : Dok p x (Expr.var 2) := trivial
    have hD0 : Dok p x ((cylState initState (.var 0) (.var 2)).xxCart 0) :=
      ⟨hDr, trivial⟩
    have hD1 : Dok p x ((cylState initState (.var 0) (.var 2)).xxCart 1) :=
      ⟨hDr, trivial⟩
    have hD2 : Dok p x ((cylState initState (.var 0) (.var 2)).xxCart 2) := hDz
    have hB := C2_cyl_branch p x initState (.var 0) (.var 2)
      (by decide) (by decide) (by decide) (by decide)
      hx0 (by simp [evalE_diffE_var]) (by simp [evalE_diffE_var])
    exact ⟨fun i j => UV_entry p x _ i j hD0 hD1 hD2
        (by fin_cases j; exacts [hD0, hD1, hD2]),
      fun i => by fin_cases i; exacts [hB.1, hB.2.1, hB.2.2.1],
      fun i i' hne => by
        fin_cases i <;> fin_cases i'
        exacts [absurd rfl hne, hB.2.2.2.1, hB.2.2.2.2.1,
          hB.2.2.2.2.2.1, absurd rfl hne, hB.2.2.2.2.2.2.1,
          hB.2.2.2.2.2.2.2.1, hB.2.2.2.2.2.2.2.2, absurd rfl hne]⟩
  · -- SinhCylindricalv2
    injection h with h; subst h
    have hDr : Dok p x rhoSinhv2E :=
      Dok_sinhMulv2 p x .AMPLRHO .const_drho .SINHWRHO 0 (ne_of_gt (hp .SINHWRHO))
    have hDz : Dok p x zSinhv2E :=
      Dok_sinhMulv2 p x .AMPLZ .const_dz .SINHWZ 2 (ne_of_gt (hp .SINHWZ))
    have hD0 : Dok p x ((cylState initState rhoSinhv2E zSinhv2E).xxCart 0) :=
      ⟨hDr, trivial⟩
    have hD1 : Dok p x ((cylState initState rhoSinhv2E zSinhv2E).xxCart 1) :=
      ⟨hDr, trivial⟩
    have hD2 : Dok p x ((cylState initState rhoSinhv2E zSinhv2E).xxCart 2) := hDz
    have hB := C2_cyl_branch p x initState rhoSinhv2E zSinhv2E
      (by decide) (by decide) (by decide) (by decide)
      (sinhMulv2_pos p x .AMPLRHO .const_drho .SINHWRHO 0 (hp _) (hp _) (hp _) hx0)
      (sinhMulv2_diff_pos p x .AMPLRHO .const_drho .SINHWRHO 0 (hp _) (hp _) (hp _))
      (sinhMulv2_diff_pos p x .AMPLZ .const_dz .SINHWZ 2 (hp _) (hp _) (hp _))
    exact ⟨fun i j => UV_entry p x _ i j hD0 hD1 hD2
        (by fin_cases j; exacts [hD0, hD1, hD2]),
      fun i => by fin_cases i; exacts [hB.1, hB.2.1, hB.2.2.1],
      fun i i' hne => by
        fin_cases i <;> fin_cases i'
        exacts [absurd rfl hne, hB.2.2.2.1, hB.2.2.2.2.1,
          hB.2.2.2.2.2.1, absurd rfl hne, hB.2.2.2.2.2.2.1,
          hB.2.2.2.2.2.2.2.1, hB.2.2.2.2.2.2.2.2, absurd rfl hne]⟩
  · -- SinhCylindrical
    injection h with h; subst h
    have hDr : Dok p x rhoSinhE :=
      Dok_sinhMul p x .AMPLRHO .SINHWRHO 0 (ne_of_gt (hp .SINHWRHO))
    have hDz : Dok p x zSinhE :=
      Dok_sinhMul p x .AMPLZ .SINHWZ 2 (ne_of_gt (hp .SINHWZ))
    have hD0 : Dok p x ((cylState initState rhoSinhE zSinhE).xxCart 0) :=
      ⟨hDr, trivial⟩
    have hD1 : Dok p x ((cylState initState rhoSinhE zSinhE).xxCart 1) :=
      ⟨hDr, trivial⟩
    have hD2 : Dok p x ((cylState initState rhoSinhE zSinhE).xxCart 2) := hDz
    have hB := C2_cyl_branch p x initState rhoSinhE zSinhE
      (by decide) (by decide) (by decide) (by decide)
      (sinhMul_pos p x .AMPLRHO .SINHWRHO 0 (hp _) (hp _) hx0)
      (sinhMul_diff_pos p x .AMPLRHO .SINHWRHO 0 (hp _) (hp _))
      (sinhMul_diff_pos p x .AMPLZ .SINHWZ 2 (hp _) (hp _))
    exact ⟨fun i j => UV_entry p x _ i j hD0 hD1 hD2
        (by fin_cases j; exacts [hD0, hD1, hD2]),
      fun i => by fin_cases i; exacts [hB.1, hB.2.1, hB.2.2.1],
      fun i i' hne => by
        fin_cases i <;> fin_cases i'
        exacts [absurd rfl hne, hB.2.2.2.1, hB.2.2.2.2.1,
          hB.2.2.2.2.2.1, absurd rfl hne, hB.2.2.2.2.2.2.1,
          hB.2.2.2.2.2.2.2.1, hB.2.2.2.2.2.2.2.2, absurd rfl hne]⟩
  · -- SinhSymTP
    injection h with h; subst h
    have hDA : Dok p x aaSinhE := Dok_aaSinhE p x (ne_of_gt (hp .AW))
    have harg : (0:ℝ) < evalE p x aaSinhE * evalE p x aaSinhE
        + p .bScale * p .bScale :=
      add_pos_of_nonneg_of_pos (mul_self_nonneg _)
        (mul_self_pos.mpr (ne_of_gt (hp .bScale)))
    have hD0 : Dok p x ((tpState initState aaSinhE).xxCart 0) :=
      ⟨⟨hDA, trivial⟩, trivial⟩
    have hD1 : Dok p x ((tpState initState aaSinhE).xxCart 1) :=
      ⟨⟨hDA, trivial⟩, trivial⟩
    have hD2 : Dok p x ((tpState initState aaSinhE).xxCart 2) :=
      ⟨⟨⟨⟨hDA, hDA⟩, ⟨trivial, trivial⟩⟩, ne_of_gt harg⟩, trivial⟩
    have hB := C2_tp_branch p x initState aaSinhE (by decide) (by decide)
      (aaSinh_pos p x (hp .AW) hx0) (aaSinh_diff_pos p x (hp .AW))
      (hp .bScale) hsin
    exact ⟨fun i j => UV_entry p x _ i j hD0 hD1 hD2
        (by fin_cases j; exacts [hD0, hD1, hD2]),
      fun i => by fin_cases i; exacts [hB.1, hB.2.1, hB.2.2.1],
      fun i i' hne => by
        fin_cases i <;> fin_cases i'
        exacts [absurd rfl hne, hB.2.2.2.1, hB.2.2.2.2.1,
          hB.2.2.2.2.2.1, absurd rfl hne, hB.2.2.2.2.2.2.1,
          hB.2.2.2.2.2.2.2.1, hB.2.2.2.2.2.2.2.2, absurd rfl hne]⟩
  · -- SymTP
    injection h with h; subst h
    have hDA : Dok p x (Expr.var 0) := trivial
    have harg : (0:ℝ) < evalE p x (Expr.var 0) * evalE p x (Expr.var 0)
        + p .bScale * p .bScale :=
      add_pos_of_nonneg_of_pos (mul_self_nonneg _)
        (mul_self_pos.mpr (ne_of_gt (hp .bScale)))
    have hD0 : Dok p x ((tpState initState (.var 0)).xxCart 0) :=
      ⟨⟨hDA, trivial⟩, trivial⟩
    have hD1 : Dok p x ((tpState initState (.var 0)).xxCart 1) :=
      ⟨⟨hDA, trivial⟩, trivial⟩
    have hD2 : Dok p x ((tpState initState (.var 0)).xxCart 2) :=
      ⟨⟨⟨⟨hDA, hDA⟩, ⟨trivial, trivial⟩⟩, ne_of_gt harg⟩, trivial⟩
    have hB := C2_tp_branch p x initState (.var 0) (by decide) (by decide)
      hx0 (by simp [evalE_diffE_var]) (hp .bScale) hsin
    exact ⟨fun i j => UV_entry p x _ i j hD0 hD1 hD2
        (by fin_cases j; exacts [hD0, hD1, hD2]),
      fun i => by fin_cases i; exacts [hB.1, hB.2.1, hB.2.2.1],
      fun i i' hne => by
        fin_cases i <;> fin_cases i'
        exacts [absurd rfl hne, hB.2.2.2.1, hB.2.2.2.2.1,
          hB.2.2.2.2.2.1, absurd rfl hne, hB.2.2.2.2.2.2.1,
          hB.2.2.2.2.2.2.2.1, hB.2.2.2.2.2.2.2.2, absurd rfl hne]⟩
  · -- Cartesian
    injection h with h; subst h
    have hD0 : Dok p x ((cartState initState).xxCart 0) := trivial
    have hD1 : Dok p x ((cartState initState).xxCart 1) := trivial
    have hD2 : Dok p x ((cartState initState).xxCart 2) := trivial
    have hB := C2_cart_branch p x initState
    exact ⟨fun i j => UV_entry p x _ i j hD0 hD1 hD2
        (by fin_cases j; exacts [hD0, hD1, hD2]),
      fun i => by fin_cases i; exacts [hB.1, hB.2.1, hB.2.2.1],
      fun i i' hne => by
        fin_cases i <;> fin_cases i'
        exacts [absurd rfl hne, hB.2.2.2.1, hB.2.2.2.2.1,
          hB.2.2.2.2.2.1, absurd rfl hne, hB.2.2.2.2.2.2.1,
          hB.2.2.2.2.2.2.2.1, hB.2.2.2.2.2.2.2.2, absurd rfl hne]⟩

theorem C2_witness :
    evalE (fun _ => 1) (fun _ => 1) (UnitVectors3D (activeState "Spherical") 0 0)
      = pderiv (fun _ => 1) (fun _ => 1) 0
          ((activeState "Spherical").xxCart (Fin.castSucc 0))
        / Real.sqrt (∑ k : Fin 3, (pderiv (fun _ => 1) (fun _ => 1) 0
            ((activeState "Spherical").xxCart k.castSucc))^2) :=
  (C2_unit_vectors_orthonormal "Spherical" (activeState "Spherical") rfl
    (fun _ => 1) (fun _ => 1) (fun _ => one_pos) one_pos
    (Real.sin_pos_of_pos_of_lt_pi one_pos
      (by show (1:ℝ) < Real.pi; linarith [Real.pi_gt_three]))).1 0 0
